import Mathlib

/-! Contract instance scripts of `equity/instance`.

A shallow embedding of the three contract templates of package `instance`
(`CallOption.go`, `LoanCollateral.go`, `PriceChanger.go`): the encoders
`PayToX`, the decoders `ParsePayToX`, and the operations of packages `vm` and
`compiler` they call.

Conventions.
* A Go `[]byte` is a `List Nat`; a well-formed byte is `< 256`.
* A Go `int64` is an `Int`, a `uint64` a `Nat`; conversions wrap modulo `2^64`
  explicitly.
* A decoder returns the Go pair `(result, err)` as `Outcome.ret result err`; the
  run-time failure of an out-of-range index is the separate outcome
  `Outcome.panic`.
-/

namespace Bytom

/-- A byte string, Go `[]byte`. -/
abbrev Bytes := List Nat

/-! ## Package `vm`: opcodes, instructions, disassembly -/

/-- Error values of package `vm` returned by the disassembler and the integer
decoding helper. -/
inductive VMError
  | ErrShortProgram
  | ErrBadValue
deriving DecidableEq

/-- Error values seen by the callers of package `instance`. -/
inductive Error
  /-- The value of `fmt.Errorf(msg)`. -/
  | fmt (msg : String)
  /-- An error of package `vm`, passed on unchanged. -/
  | vm (e : VMError)
  /-- An encoding error of the script compiler, passed on unchanged. -/
  | encoding
deriving DecidableEq

/-- The opcode pushing the empty string (the number 0). The body bytes in
`PriceChanger.go` use it for the literal `0`. -/
abbrev OP_0 : Nat := 0x00
/-- First of the opcodes `DATA_1 .. DATA_75`, which push the next 1 to 75 bytes. -/
abbrev OP_DATA_1 : Nat := 0x01
/-- Last of the opcodes `DATA_1 .. DATA_75`. -/
abbrev OP_DATA_75 : Nat := 0x4b
/-- Push with a one-byte length. -/
abbrev OP_PUSHDATA1 : Nat := 0x4c
/-- Push with a two-byte little-endian length. -/
abbrev OP_PUSHDATA2 : Nat := 0x4d
/-- Push with a four-byte little-endian length. -/
abbrev OP_PUSHDATA4 : Nat := 0x4e
/-- First of the small-integer opcodes `1 .. 16`. -/
abbrev OP_1 : Nat := 0x51
/-- Last of the small-integer opcodes `1 .. 16`. -/
abbrev OP_16 : Nat := 0x60
/-- The opcode `JUMP`, followed by a four-byte address. -/
abbrev OP_JUMP : Nat := 0x63
/-- The opcode `JUMPIF`, followed by a four-byte address. -/
abbrev OP_JUMPIF : Nat := 0x64
/-- The opcode `DEPTH` (the byte `0x74` of the literal `0x7478` in
`PriceChanger.go`). -/
abbrev OP_DEPTH : Nat := 0x74
/-- The opcode `OVER` (the byte `0x78` of the literal `0x7478`). -/
abbrev OP_OVER : Nat := 0x78
/-- The opcode `CHECKPREDICATE` (the literal `192` in `PriceChanger.go`). -/
abbrev OP_CHECKPREDICATE : Nat := 0xc0

/-- Modelled from the spec: the type `vm.Instruction` (package `protocol/vm`,
not under `src/`): a decoded token with its opcode and, for a pushdata
instruction, its literal payload. -/
structure Instruction where
  Op : Nat
  Data : Bytes
deriving DecidableEq

/-- Modelled from the spec: `Instruction.IsPushdata` (package `protocol/vm`, not
under `src/`). A pushdata instruction is one whose sole effect is pushing a
literal byte string: `0`, `DATA_1 .. DATA_75`, `PUSHDATA1/2/4` and the small
integers `1 .. 16`. -/
def Instruction.IsPushdata (inst : Instruction) : Bool :=
  decide (inst.Op ≤ OP_PUSHDATA4) || decide (OP_1 ≤ inst.Op ∧ inst.Op ≤ OP_16)

/-- Go conversion `int64(x)` of an unsigned 64-bit value: two-complement
reinterpretation. -/
def int64 (x : Nat) : Int :=
  if x % 2 ^ 64 < 2 ^ 63 then ((x % 2 ^ 64 : Nat) : Int) else ((x % 2 ^ 64 : Nat) : Int) - 2 ^ 64

/-- Go conversion `uint64(n)` of a signed 64-bit value. -/
def uint64 (n : Int) : Nat :=
  (n % 2 ^ 64).toNat

/-- Little-endian value of a byte string. -/
def littleEndian : Bytes → Nat
  | [] => 0
  | b :: bs => b + 256 * littleEndian bs

/-- Modelled from the spec: the decode-as-integer helper `vm.AsInt64` (package
`protocol/vm`, not under `src/`). The empty string is 0, a string of more than
8 bytes is an error, anything else is the little-endian two-complement value of
the string padded with zero bytes to 8 bytes. -/
def AsInt64 (b : Bytes) : Except VMError Int :=
  if b.length = 0 then .ok 0
  else if b.length > 8 then .error .ErrBadValue
  else .ok (int64 (littleEndian b))

/-- The 8 little-endian bytes of an unsigned 64-bit value. -/
def putUint64 (v : Nat) : Bytes :=
  [v % 256, v / 2 ^ 8 % 256, v / 2 ^ 16 % 256, v / 2 ^ 24 % 256,
   v / 2 ^ 32 % 256, v / 2 ^ 40 % 256, v / 2 ^ 48 % 256, v / 2 ^ 56 % 256]

/-- Removes the zero bytes at the end of a byte string. -/
def dropTrailingZeros (b : Bytes) : Bytes :=
  (b.reverse.dropWhile (fun x => x == 0)).reverse

/-- Modelled from the spec: the minimal-length signed encoding of an integer,
`vm.Int64Bytes` (package `protocol/vm`, not under `src/`): the 8 little-endian
bytes of the two-complement value without the zero bytes at the end; 0 is the
empty string. -/
def Int64Bytes (n : Int) : Bytes :=
  if n = 0 then [] else dropTrailingZeros (putUint64 (uint64 n))

/-- Modelled from the spec: the pushdata encoding of a byte string,
`vm.PushdataBytes` (package `protocol/vm`, not under `src/`): the shortest of
the opcodes `0`, `DATA_n`, `PUSHDATA1`, `PUSHDATA2`, `PUSHDATA4` that can hold
the length, the little-endian length for the last three, then the bytes
verbatim. -/
def PushdataBytes (data : Bytes) : Bytes :=
  let l := data.length
  if l = 0 then [OP_0]
  else if l ≤ 75 then (OP_DATA_1 + l - 1) :: data
  else if l < 2 ^ 8 then OP_PUSHDATA1 :: l :: data
  else if l < 2 ^ 16 then OP_PUSHDATA2 :: l % 256 :: l / 2 ^ 8 % 256 :: data
  else OP_PUSHDATA4 :: l % 256 :: l / 2 ^ 8 % 256 :: l / 2 ^ 16 % 256 :: l / 2 ^ 24 % 256 :: data

/-- Modelled from the spec: the pushdata encoding of an integer,
`vm.PushdataInt64` (package `protocol/vm`, not under `src/`): the one-byte
opcodes for 0 and for 1 to 16, otherwise a push of the minimal-length signed
encoding. -/
def PushdataInt64 (n : Int) : Bytes :=
  if n = 0 then [OP_0]
  else if 1 ≤ n ∧ n ≤ 16 then [OP_1 + n.toNat - 1]
  else PushdataBytes (Int64Bytes n)

/-- Reads the `n` payload bytes of an instruction with opcode `op`. -/
def takeData (op n : Nat) (rest : Bytes) : Except VMError (Instruction × Bytes) :=
  if rest.length < n then .error .ErrShortProgram
  else .ok ({ Op := op, Data := rest.take n }, rest.drop n)

/-- Modelled from the spec: one step of the disassembler, `vm.ParseOp` (package
`protocol/vm`, not under `src/`), on the part of the program that is still to be
read. Returns the instruction at its head and the bytes after it. -/
def ParseOp : Bytes → Except VMError (Instruction × Bytes)
  | [] => .error .ErrShortProgram
  | opcode :: rest =>
    if OP_1 ≤ opcode ∧ opcode ≤ OP_16 then
      .ok ({ Op := opcode, Data := [opcode - OP_1 + 1] }, rest)
    else if OP_DATA_1 ≤ opcode ∧ opcode ≤ OP_DATA_75 then
      takeData opcode opcode rest
    else if opcode = OP_PUSHDATA1 then
      match rest with
      | n :: rest1 => takeData opcode n rest1
      | _ => .error .ErrShortProgram
    else if opcode = OP_PUSHDATA2 then
      match rest with
      | b0 :: b1 :: rest2 => takeData opcode (b0 + 2 ^ 8 * b1) rest2
      | _ => .error .ErrShortProgram
    else if opcode = OP_PUSHDATA4 then
      match rest with
      | b0 :: b1 :: b2 :: b3 :: rest4 =>
        takeData opcode (b0 + 2 ^ 8 * b1 + 2 ^ 16 * b2 + 2 ^ 24 * b3) rest4
      | _ => .error .ErrShortProgram
    else if opcode = OP_JUMP ∨ opcode = OP_JUMPIF then
      takeData opcode 4 rest
    else
      .ok ({ Op := opcode, Data := [] }, rest)

/-- The loop of `vm.ParseProgram`: at most `fuel` instructions are read. -/
def ParseProgramLoop : Nat → Bytes → Except VMError (List Instruction)
  | _, [] => .ok []
  | 0, _ :: _ => .error .ErrShortProgram
  | fuel + 1, opcode :: rest =>
    match ParseOp (opcode :: rest) with
    | .error e => .error e
    | .ok (inst, rest1) =>
      match ParseProgramLoop fuel rest1 with
      | .error e => .error e
      | .ok insts => .ok (inst :: insts)

/-- Modelled from the spec: the disassembler `vm.ParseProgram` (package
`protocol/vm`, not under `src/`): tokenizes a byte script into its ordered
instruction list, or fails. Every instruction takes at least one byte, so the
length of the program is enough fuel. -/
def ParseProgram (prog : Bytes) : Except VMError (List Instruction) :=
  ParseProgramLoop prog.length prog

/-! ## Package `compiler`: instantiation -/

/-- Modelled from the spec: `compiler.Param` (package `equity/compiler`, not
under `src/`), a declared parameter: name and semantic type (field `Type` in Go). -/
structure Param where
  Name : String
  Typ : String
deriving DecidableEq

/-- Modelled from the spec: `compiler.ContractArg` (package `equity/compiler`,
not under `src/`), the tagged union of a signed 64-bit integer (field `I`) and a
byte string (field `S`). -/
inductive ContractArg
  | I (n : Int)
  | S (s : Bytes)
deriving DecidableEq

/-- The pushdata payload of an argument: the minimal-length signed encoding of
an integer, the bytes of a byte string verbatim. -/
def ContractArg.payload : ContractArg → Bytes
  | .I n => Int64Bytes n
  | .S s => s

/-- The pushdata size limit: the largest length a four-byte length field can
hold. -/
abbrev maxPushdataSize : Nat := 2 ^ 32 - 1

/-- The bytes of the pushdata instruction of one argument; an encoding error
when a byte string is longer than the pushdata size limit. -/
def pushArg : ContractArg → Except Error Bytes
  | .I n => .ok (PushdataInt64 n)
  | .S s => if s.length ≤ maxPushdataSize then .ok (PushdataBytes s) else .error .encoding

/-- The bytes of the pushdata instructions of a list of arguments, in the order
of the list. -/
def pushArgs : List ContractArg → Except Error Bytes
  | [] => .ok []
  | a :: rest =>
    match pushArg a with
    | .error e => .error e
    | .ok x =>
      match pushArgs rest with
      | .error e => .error e
      | .ok xs => .ok (x ++ xs)

/-- Modelled from the spec: the script compiler `compiler.Instantiate` (package
`equity/compiler`, not under `src/`). One pushdata instruction per argument,
then the epilogue: `DEPTH`, body, `0`, `CHECKPREDICATE` for a template that is
not quorum-flagged; body, `DEPTH`, `OVER`, `0`, `CHECKPREDICATE` for one that
is. The arguments are pushed in declared order, as the specification has it:
the decoder collects the payloads in declared order, and the first payload of
the concrete scenario is the encoding of the first argument. The stack-layout
comments at the head of the contract bodies in `src/`, which put the first
declared parameter on top of the stack, are not part of this model. -/
def Instantiate (body : Bytes) (_params : List Param) (recursive : Bool)
    (args : List ContractArg) : Except Error Bytes :=
  match pushArgs args with
  | .error e => .error e
  | .ok argBytes =>
    match pushArg (.S body) with
    | .error e => .error e
    | .ok bodyBytes =>
      if recursive then
        .ok (argBytes ++ bodyBytes ++ [OP_DEPTH, OP_OVER] ++ PushdataInt64 0 ++ [OP_CHECKPREDICATE])
      else
        .ok (argBytes ++ [OP_DEPTH] ++ bodyBytes ++ PushdataInt64 0 ++ [OP_CHECKPREDICATE])

/-- Modelled from the spec: `bc.AssetID` (package `protocol/bc`, not under
`src/`), a 32-byte asset identifier held as four unsigned 64-bit words. -/
structure AssetID where
  V0 : Nat
  V1 : Nat
  V2 : Nat
  V3 : Nat
deriving DecidableEq

/-- The 8 big-endian bytes of an unsigned 64-bit value. -/
def putUint64BE (v : Nat) : Bytes :=
  (putUint64 v).reverse

/-- Modelled from the spec: `bc.AssetID.Bytes` (package `protocol/bc`, not under
`src/`): the 32 bytes of the identifier. -/
def AssetID.Bytes (a : AssetID) : Bytom.Bytes :=
  putUint64BE a.V0 ++ putUint64BE a.V1 ++ putUint64BE a.V2 ++ putUint64BE a.V3

/-! ## Package `instance` -/

/-- What a call of a decoder does: it returns the Go pair `(result, err)`, or it
stops with an index out of range. -/
inductive Outcome
  | ret (result : Option (List Bytes)) (err : Option Error)
  | panic
deriving DecidableEq

/-- The index expression `insts[i]`: the element, or an index out of range. -/
def index (insts : List Instruction) (i : Nat) (k : Instruction → Outcome) : Outcome :=
  match insts[i]? with
  | some inst => k inst
  | none => .panic

/-- The loop `for i := 0; i < n; i++` at the head of every decoder: each round
takes one pushdata instruction off `insts` and appends its payload to
`result`; `k` is the code after the loop. -/
def argLoop (n : Nat) (insts : List Instruction) (result : List Bytes)
    (k : List Instruction → List Bytes → Outcome) : Outcome :=
  match n with
  | 0 => k insts result
  | n + 1 =>
    if insts.length = 0 then .ret none (some (.fmt "program too short"))
    else index insts 0 fun i0 =>
      if !i0.IsPushdata then .ret none (some (.fmt "too few arguments"))
      else argLoop n (insts.drop 1) (result ++ [i0.Data]) k

/-- The value of `CallOptionBodyBytes` after `init`: the decoded hex string. -/
def CallOptionBodyBytes : Bytes :=
  [0x55, 0x7a, 0x64, 0x20, 0x00, 0x00, 0x00, 0x54, 0x7a, 0xcd, 0xa0, 0x69,
   0x54, 0x7a, 0x54, 0x7a, 0xae, 0x7c, 0xac, 0x69, 0x00, 0x7c, 0x7b, 0x51,
   0x54, 0x7a, 0xc1, 0x63, 0x2c, 0x00, 0x00, 0x00, 0x54, 0x7a, 0xcd, 0x9f,
   0x69, 0x00, 0xc3, 0xc2, 0x51, 0x56, 0x7a, 0xc1]

/-- The value of `LoanCollateralBodyBytes` after `init`: the decoded hex string. -/
def LoanCollateralBodyBytes : Bytes :=
  [0x55, 0x7a, 0x64, 0x1b, 0x00, 0x00, 0x00, 0x00, 0x7b, 0x7b, 0x51, 0x55,
   0x7a, 0xc1, 0x69, 0x51, 0xc3, 0xc2, 0x51, 0x55, 0x7a, 0xc1, 0x63, 0x26,
   0x00, 0x00, 0x00, 0x7b, 0xcd, 0x9f, 0x69, 0x00, 0xc3, 0xc2, 0x51, 0x56,
   0x7a, 0xc1]

/-- The value of `PriceChangerBodyBytes` after `init`: the decoded hex string. -/
def PriceChangerBodyBytes : Bytes :=
  [0x55, 0x7a, 0x64, 0x32, 0x00, 0x00, 0x00, 0x55, 0x7a, 0x54, 0x79, 0xae,
   0x7c, 0xac, 0x69, 0x00, 0xc3, 0xc2, 0x51, 0x00, 0x59, 0x7a, 0x89, 0x58,
   0x7a, 0x89, 0x58, 0x7a, 0x89, 0x58, 0x7a, 0x89, 0x55, 0x7a, 0x89, 0x02,
   0x74, 0x78, 0x7e, 0x00, 0x89, 0x01, 0xc0, 0x7e, 0xc1, 0x63, 0x3a, 0x00,
   0x00, 0x00, 0x00, 0x7b, 0x53, 0x7a, 0x51, 0x56, 0x7a, 0xc1]

/-- The declared parameters `_contractParams` of `PayToCallOption`. -/
def CallOptionParams : List Param :=
  [{ Name := "strikePrice", Typ := "Amount" },
   { Name := "strikeCurrency", Typ := "Asset" },
   { Name := "seller", Typ := "Program" },
   { Name := "buyerKey", Typ := "PublicKey" },
   { Name := "blockHeight", Typ := "Integer" }]

/-- The list `_contractArgs` that `PayToCallOption` builds. -/
def CallOptionArgs (strikePrice : Nat) (strikeCurrency : AssetID) (seller buyerKey : Bytes)
    (blockHeight : Int) : List ContractArg :=
  [.I (int64 strikePrice), .S strikeCurrency.Bytes, .S seller, .S buyerKey, .I blockHeight]

/-- The encoder `PayToCallOption` of `CallOption.go`. -/
def PayToCallOption (strikePrice : Nat) (strikeCurrency : AssetID) (seller buyerKey : Bytes)
    (blockHeight : Int) : Except Error Bytes :=
  Instantiate CallOptionBodyBytes CallOptionParams false
    (CallOptionArgs strikePrice strikeCurrency seller buyerKey blockHeight)

/-- The decoder `ParsePayToCallOption` of `CallOption.go` after the call of
`vm.ParseProgram`, on the instruction list. -/
def ParsePayToCallOptionInsts (insts : List Instruction) : Outcome :=
  argLoop 5 insts [] fun insts result =>
  if insts.length ≠ 4 then .ret none (some (.fmt "program too short")) else
  index insts 0 fun i0 =>
  if i0.Op ≠ OP_DEPTH then .ret none (some (.fmt "wrong program format")) else
  index insts 1 fun i1 =>
  if !i1.IsPushdata then .ret none (some (.fmt "wrong program format")) else
  if CallOptionBodyBytes ≠ i1.Data then
    .ret none (some (.fmt "body bytes do not match CallOption")) else
  index insts 2 fun i2 =>
  if !i2.IsPushdata then .ret none (some (.fmt "wrong program format")) else
  match AsInt64 i2.Data with
  | .error err => .ret none (some (.vm err))
  | .ok v =>
  if v ≠ 0 then .ret none (some (.fmt "wrong program format")) else
  index insts 3 fun i3 =>
  if i3.Op ≠ OP_CHECKPREDICATE then .ret none (some (.fmt "wrong program format")) else
  .ret (some result) none

/-- The decoder `ParsePayToCallOption` of `CallOption.go`. -/
def ParsePayToCallOption (prog : Bytes) : Outcome :=
  match ParseProgram prog with
  | .error err => .ret none (some (.vm err))
  | .ok insts => ParsePayToCallOptionInsts insts

/-- The declared parameters `_contractParams` of `PayToLoanCollateral`. -/
def LoanCollateralParams : List Param :=
  [{ Name := "assetLoaned", Typ := "Asset" },
   { Name := "amountLoaned", Typ := "Amount" },
   { Name := "blockHeight", Typ := "Integer" },
   { Name := "lender", Typ := "Program" },
   { Name := "borrower", Typ := "Program" }]

/-- The list `_contractArgs` that `PayToLoanCollateral` builds. -/
def LoanCollateralArgs (assetLoaned : AssetID) (amountLoaned : Nat) (blockHeight : Int)
    (lender borrower : Bytes) : List ContractArg :=
  [.S assetLoaned.Bytes, .I (int64 amountLoaned), .I blockHeight, .S lender, .S borrower]

/-- The encoder `PayToLoanCollateral` of `LoanCollateral.go`. -/
def PayToLoanCollateral (assetLoaned : AssetID) (amountLoaned : Nat) (blockHeight : Int)
    (lender borrower : Bytes) : Except Error Bytes :=
  Instantiate LoanCollateralBodyBytes LoanCollateralParams false
    (LoanCollateralArgs assetLoaned amountLoaned blockHeight lender borrower)

/-- The decoder `ParsePayToLoanCollateral` of `LoanCollateral.go` after the call
of `vm.ParseProgram`, on the instruction list. -/
def ParsePayToLoanCollateralInsts (insts : List Instruction) : Outcome :=
  argLoop 5 insts [] fun insts result =>
  if insts.length ≠ 4 then .ret none (some (.fmt "program too short")) else
  index insts 0 fun i0 =>
  if i0.Op ≠ OP_DEPTH then .ret none (some (.fmt "wrong program format")) else
  index insts 1 fun i1 =>
  if !i1.IsPushdata then .ret none (some (.fmt "wrong program format")) else
  if LoanCollateralBodyBytes ≠ i1.Data then
    .ret none (some (.fmt "body bytes do not match LoanCollateral")) else
  index insts 2 fun i2 =>
  if !i2.IsPushdata then .ret none (some (.fmt "wrong program format")) else
  match AsInt64 i2.Data with
  | .error err => .ret none (some (.vm err))
  | .ok v =>
  if v ≠ 0 then .ret none (some (.fmt "wrong program format")) else
  index insts 3 fun i3 =>
  if i3.Op ≠ OP_CHECKPREDICATE then .ret none (some (.fmt "wrong program format")) else
  .ret (some result) none

/-- The decoder `ParsePayToLoanCollateral` of `LoanCollateral.go`. -/
def ParsePayToLoanCollateral (prog : Bytes) : Outcome :=
  match ParseProgram prog with
  | .error err => .ret none (some (.vm err))
  | .ok insts => ParsePayToLoanCollateralInsts insts

/-- The declared parameters `_contractParams` of `PayToPriceChanger`. -/
def PriceChangerParams : List Param :=
  [{ Name := "askAmount", Typ := "Amount" },
   { Name := "askAsset", Typ := "Asset" },
   { Name := "sellerKey", Typ := "PublicKey" },
   { Name := "sellerProg", Typ := "Program" }]

/-- The list `_contractArgs` that `PayToPriceChanger` builds. -/
def PriceChangerArgs (askAmount : Nat) (askAsset : AssetID) (sellerKey sellerProg : Bytes) :
    List ContractArg :=
  [.I (int64 askAmount), .S askAsset.Bytes, .S sellerKey, .S sellerProg]

/-- The encoder `PayToPriceChanger` of `PriceChanger.go`. -/
def PayToPriceChanger (askAmount : Nat) (askAsset : AssetID) (sellerKey sellerProg : Bytes) :
    Except Error Bytes :=
  Instantiate PriceChangerBodyBytes PriceChangerParams true
    (PriceChangerArgs askAmount askAsset sellerKey sellerProg)

/-- The decoder `ParsePayToPriceChanger` of `PriceChanger.go` after the call of
`vm.ParseProgram`, on the instruction list. -/
def ParsePayToPriceChangerInsts (insts : List Instruction) : Outcome :=
  argLoop 4 insts [] fun insts result =>
  if insts.length = 0 then .ret none (some (.fmt "program too short")) else
  index insts 0 fun b0 =>
  if !b0.IsPushdata then .ret none (some (.fmt "too few arguments")) else
  if PriceChangerBodyBytes ≠ b0.Data then
    .ret none (some (.fmt "body bytes do not match PriceChanger")) else
  let insts := insts.drop 1
  if insts.length ≠ 4 then .ret none (some (.fmt "program too short")) else
  index insts 0 fun i0 =>
  if i0.Op ≠ OP_DEPTH then .ret none (some (.fmt "wrong program format")) else
  index insts 1 fun i1 =>
  if i1.Op ≠ OP_OVER then .ret none (some (.fmt "wrong program format")) else
  index insts 2 fun i2 =>
  if !i2.IsPushdata then .ret none (some (.fmt "wrong program format")) else
  match AsInt64 i2.Data with
  | .error err => .ret none (some (.vm err))
  | .ok v =>
  if v ≠ 0 then .ret none (some (.fmt "wrong program format")) else
  index insts 3 fun i3 =>
  if i3.Op ≠ OP_CHECKPREDICATE then .ret none (some (.fmt "wrong program format")) else
  .ret (some result) none

/-- The decoder `ParsePayToPriceChanger` of `PriceChanger.go`. -/
def ParsePayToPriceChanger (prog : Bytes) : Outcome :=
  match ParseProgram prog with
  | .error err => .ret none (some (.vm err))
  | .ok insts => ParsePayToPriceChangerInsts insts

/-! ## The decoders on instruction lists: common forms -/

/-- The code after the argument loop of a decoder of a template that is not
quorum-flagged, for given body bytes and error of the body check. -/
def epilogueNonQuorum (body : Bytes) (mismatch : Error) (insts : List Instruction)
    (result : List Bytes) : Outcome :=
  if insts.length ≠ 4 then .ret none (some (.fmt "program too short")) else
  index insts 0 fun i0 =>
  if i0.Op ≠ OP_DEPTH then .ret none (some (.fmt "wrong program format")) else
  index insts 1 fun i1 =>
  if !i1.IsPushdata then .ret none (some (.fmt "wrong program format")) else
  if body ≠ i1.Data then .ret none (some mismatch) else
  index insts 2 fun i2 =>
  if !i2.IsPushdata then .ret none (some (.fmt "wrong program format")) else
  match AsInt64 i2.Data with
  | .error err => .ret none (some (.vm err))
  | .ok v =>
  if v ≠ 0 then .ret none (some (.fmt "wrong program format")) else
  index insts 3 fun i3 =>
  if i3.Op ≠ OP_CHECKPREDICATE then .ret none (some (.fmt "wrong program format")) else
  .ret (some result) none

/-- The two decoders of the templates that are not quorum-flagged differ only in
the body bytes and in the error of the body check: their common form. -/
def decodeNonQuorum (body : Bytes) (mismatch : Error) (insts : List Instruction) : Outcome :=
  argLoop 5 insts [] (epilogueNonQuorum body mismatch)

/-- The call returned no error. -/
def Outcome.succeeds (o : Outcome) : Prop :=
  ∃ result, o = .ret result none

/-- The call returned an error and a nil result. -/
def Outcome.fails (o : Outcome) : Prop :=
  ∃ err, o = .ret none (some err)

/-! ## Forms, predicates and samples used in the statements -/

/-- The shape that the decoders of the templates that are not quorum-flagged
accept, in the words of the specification: 9 instructions, 5 pushdata, `DEPTH`,
a pushdata of the body, a pushdata that decodes as 0, `CHECKPREDICATE`. -/
def nonQuorumShape (body : Bytes) (L : List Instruction) : Prop :=
  L.length = 9 ∧ (∀ x ∈ L.take 5, x.IsPushdata = true) ∧
  L[5]?.map (fun x => x.Op) = some OP_DEPTH ∧
  L[6]?.map (fun x => x.IsPushdata) = some true ∧
  L[6]?.map (fun x => x.Data) = some body ∧
  L[7]?.map (fun x => x.IsPushdata) = some true ∧
  (L[7]?.bind fun x => (AsInt64 x.Data).toOption) = some 0 ∧
  L[8]?.map (fun x => x.Op) = some OP_CHECKPREDICATE

/-- The code after the argument loop of the decoder of a quorum-flagged
template, for given body bytes and error of the body check. -/
def epilogueQuorum (body : Bytes) (mismatch : Error) (insts : List Instruction)
    (result : List Bytes) : Outcome :=
  if insts.length = 0 then .ret none (some (.fmt "program too short")) else
  index insts 0 fun b0 =>
  if !b0.IsPushdata then .ret none (some (.fmt "too few arguments")) else
  if body ≠ b0.Data then .ret none (some mismatch) else
  let insts := insts.drop 1
  if insts.length ≠ 4 then .ret none (some (.fmt "program too short")) else
  index insts 0 fun i0 =>
  if i0.Op ≠ OP_DEPTH then .ret none (some (.fmt "wrong program format")) else
  index insts 1 fun i1 =>
  if i1.Op ≠ OP_OVER then .ret none (some (.fmt "wrong program format")) else
  index insts 2 fun i2 =>
  if !i2.IsPushdata then .ret none (some (.fmt "wrong program format")) else
  match AsInt64 i2.Data with
  | .error err => .ret none (some (.vm err))
  | .ok v =>
  if v ≠ 0 then .ret none (some (.fmt "wrong program format")) else
  index insts 3 fun i3 =>
  if i3.Op ≠ OP_CHECKPREDICATE then .ret none (some (.fmt "wrong program format")) else
  .ret (some result) none

/-- The decoder of a quorum-flagged template, for given body bytes and error of
the body check. -/
def decodeQuorum (body : Bytes) (mismatch : Error) (insts : List Instruction) : Outcome :=
  argLoop 4 insts [] (epilogueQuorum body mismatch)

/-- The shape that the decoder of the quorum-flagged template accepts, in the
words of the specification: 9 instructions, 4 pushdata, a pushdata of the body,
`DEPTH`, `OVER`, a pushdata that decodes as 0, `CHECKPREDICATE`. -/
def quorumShape (body : Bytes) (L : List Instruction) : Prop :=
  L.length = 9 ∧ (∀ x ∈ L.take 4, x.IsPushdata = true) ∧
  L[4]?.map (fun x => x.IsPushdata) = some true ∧
  L[4]?.map (fun x => x.Data) = some body ∧
  L[5]?.map (fun x => x.Op) = some OP_DEPTH ∧
  L[6]?.map (fun x => x.Op) = some OP_OVER ∧
  L[7]?.map (fun x => x.IsPushdata) = some true ∧
  (L[7]?.bind fun x => (AsInt64 x.Data).toOption) = some 0 ∧
  L[8]?.map (fun x => x.Op) = some OP_CHECKPREDICATE

/-- The byte string `c` is the encoding of the instruction `inst`: the
disassembler reads `inst` off any program that starts with `c`, and fails on
`c` cut short. -/
def Encodes (c : Bytes) (inst : Instruction) : Prop :=
  c ≠ [] ∧ (∀ rest, ParseOp (c ++ rest) = .ok (inst, rest)) ∧
  ∀ j, 0 < j → j < c.length → ∃ e, ParseOp (c.take j) = .error e

/-- The opcode of the pushdata encoding of a byte string of length `l`. -/
def pushdataOp (l : Nat) : Nat :=
  if l = 0 then OP_0
  else if l ≤ 75 then OP_DATA_1 + l - 1
  else if l < 2 ^ 8 then OP_PUSHDATA1
  else if l < 2 ^ 16 then OP_PUSHDATA2
  else OP_PUSHDATA4

/-- The opcode of the pushdata encoding of an integer. -/
def int64Op (n : Int) : Nat :=
  if n = 0 then OP_0
  else if 1 ≤ n ∧ n ≤ 16 then OP_1 + n.toNat - 1
  else pushdataOp (Int64Bytes n).length

/-- The instruction that the script compiler emits for an argument. -/
def ContractArg.inst : ContractArg → Instruction
  | .I n => ⟨int64Op n, Int64Bytes n⟩
  | .S s => ⟨pushdataOp s.length, s⟩

/-- The byte string is the concatenation of the encodings of the instructions,
in order. -/
inductive EncodesAll : Bytes → List Instruction → Prop
  | nil : EncodesAll [] []
  | cons (c : Bytes) (inst : Instruction) (cs : Bytes) (insts : List Instruction) :
      Encodes c inst → EncodesAll cs insts → EncodesAll (c ++ cs) (inst :: insts)

/-- The instructions of the epilogue of an instance script. -/
def epilogueInsts (body : Bytes) (recursive : Bool) : List Instruction :=
  if recursive then
    [⟨pushdataOp body.length, body⟩, ⟨OP_DEPTH, []⟩, ⟨OP_OVER, []⟩, ⟨OP_0, []⟩,
      ⟨OP_CHECKPREDICATE, []⟩]
  else
    [⟨OP_DEPTH, []⟩, ⟨pushdataOp body.length, body⟩, ⟨OP_0, []⟩, ⟨OP_CHECKPREDICATE, []⟩]

/-- The instructions of an instance script: the arguments in declared order,
then the epilogue. -/
def scriptInsts (body : Bytes) (recursive : Bool) (args : List ContractArg) :
    List Instruction :=
  args.map ContractArg.inst ++ epilogueInsts body recursive

/-- A script of `PayToCallOption` for the amount 7, the zero asset, a two-byte
seller program, a one-byte key and the block height 300. -/
def sampleCallOptionScript : Bytes :=
  [0x57] ++ (0x20 :: List.replicate 32 0) ++ [0x02, 0xaa, 0xbb] ++ [0x01, 0xcc] ++
    [0x02, 0x2c, 0x01] ++ [OP_DEPTH] ++ (0x2c :: CallOptionBodyBytes) ++
    [OP_0, OP_CHECKPREDICATE]

/-- A script of `PayToLoanCollateral` for an asset with last byte 1, the amount
`2^64 - 1`, the block height -2, a one-byte lender program and a borrower
program equal to the body bytes of `PriceChanger`. -/
def sampleLoanCollateralScript : Bytes :=
  (0x20 :: (List.replicate 31 0 ++ [1])) ++
    [0x08, 0xff, 0xff, 0xff, 0xff, 0xff, 0xff, 0xff, 0xff] ++
    [0x08, 0xfe, 0xff, 0xff, 0xff, 0xff, 0xff, 0xff, 0xff] ++
    [0x01, 0xaa] ++ (0x3a :: PriceChangerBodyBytes) ++
    [OP_DEPTH] ++ (0x26 :: LoanCollateralBodyBytes) ++ [OP_0, OP_CHECKPREDICATE]

/-- A script of `PayToPriceChanger` for the amount `2^63`, an asset with 8th
byte 1, a two-byte key and the empty seller program. -/
def samplePriceChangerScript : Bytes :=
  [0x08, 0, 0, 0, 0, 0, 0, 0, 0x80] ++
    (0x20 :: (List.replicate 7 0 ++ [1] ++ List.replicate 24 0)) ++ [0x02, 0xcc, 0xdd] ++
    [OP_0] ++ (0x3a :: PriceChangerBodyBytes) ++ [OP_DEPTH, OP_OVER, OP_0, OP_CHECKPREDICATE]

/-- The instruction list with the payload of instruction `i` replaced by `b`. -/
def replacePayload (L : List Instruction) (i : Nat) (b : Bytes) : List Instruction :=
  match L[i]? with
  | some x => L.set i { x with Data := b }
  | none => L

/-- The instructions of `sampleCallOptionScript`. -/
def sampleCallOptionInsts : List Instruction :=
  [⟨0x57, [7]⟩, ⟨0x20, List.replicate 32 0⟩, ⟨0x02, [0xaa, 0xbb]⟩, ⟨0x01, [0xcc]⟩,
   ⟨0x02, [0x2c, 0x01]⟩, ⟨OP_DEPTH, []⟩, ⟨0x2c, CallOptionBodyBytes⟩, ⟨OP_0, []⟩,
   ⟨OP_CHECKPREDICATE, []⟩]

/-- The instructions of `sampleLoanCollateralScript`. -/
def sampleLoanCollateralInsts : List Instruction :=
  [⟨0x20, List.replicate 31 0 ++ [1]⟩,
   ⟨0x08, [0xff, 0xff, 0xff, 0xff, 0xff, 0xff, 0xff, 0xff]⟩,
   ⟨0x08, [0xfe, 0xff, 0xff, 0xff, 0xff, 0xff, 0xff, 0xff]⟩,
   ⟨0x01, [0xaa]⟩, ⟨0x3a, PriceChangerBodyBytes⟩, ⟨OP_DEPTH, []⟩,
   ⟨0x26, LoanCollateralBodyBytes⟩, ⟨OP_0, []⟩, ⟨OP_CHECKPREDICATE, []⟩]

/-- The instructions of `samplePriceChangerScript`. -/
def samplePriceChangerInsts : List Instruction :=
  [⟨0x08, [0, 0, 0, 0, 0, 0, 0, 0x80]⟩,
   ⟨0x20, List.replicate 7 0 ++ [1] ++ List.replicate 24 0⟩, ⟨0x02, [0xcc, 0xdd]⟩,
   ⟨OP_0, []⟩, ⟨0x3a, PriceChangerBodyBytes⟩, ⟨OP_DEPTH, []⟩, ⟨OP_OVER, []⟩, ⟨OP_0, []⟩,
   ⟨OP_CHECKPREDICATE, []⟩]

/-- Every check of a decoder of a template that is not quorum-flagged before the
value of the marker passes, and the marker payload decodes as `v`. -/
def nonQuorumMarker (body : Bytes) (L : List Instruction) (v : Int) : Prop :=
  L.length = 9 ∧ (∀ x ∈ L.take 5, x.IsPushdata = true) ∧
  L[5]?.map (fun x => x.Op) = some OP_DEPTH ∧
  L[6]?.map (fun x => x.IsPushdata) = some true ∧
  L[6]?.map (fun x => x.Data) = some body ∧
  L[7]?.map (fun x => x.IsPushdata) = some true ∧
  (L[7]?.bind fun x => (AsInt64 x.Data).toOption) = some v

/-- Every check of the decoder of a quorum-flagged template before the value of
the marker passes, and the marker payload decodes as `v`. -/
def quorumMarker (body : Bytes) (L : List Instruction) (v : Int) : Prop :=
  L.length = 9 ∧ (∀ x ∈ L.take 4, x.IsPushdata = true) ∧
  L[4]?.map (fun x => x.IsPushdata) = some true ∧
  L[4]?.map (fun x => x.Data) = some body ∧
  L[5]?.map (fun x => x.Op) = some OP_DEPTH ∧
  L[6]?.map (fun x => x.Op) = some OP_OVER ∧
  L[7]?.map (fun x => x.IsPushdata) = some true ∧
  (L[7]?.bind fun x => (AsInt64 x.Data).toOption) = some v

instance (o : Outcome) : Decidable o.succeeds :=
  match o with
  | .ret r none => isTrue ⟨r, rfl⟩
  | .ret _ (some _) => isFalse (by rintro ⟨r, h⟩; cases h)
  | .panic => isFalse (by rintro ⟨r, h⟩; cases h)

instance (o : Outcome) : Decidable o.fails :=
  match o with
  | .ret none (some e) => isTrue ⟨e, rfl⟩
  | .ret (some _) _ => isFalse (by rintro ⟨e, h⟩; cases h)
  | .ret none none => isFalse (by rintro ⟨e, h⟩; cases h)
  | .panic => isFalse (by rintro ⟨e, h⟩; cases h)

instance (body : Bytes) (L : List Instruction) : Decidable (nonQuorumShape body L) := by
  unfold nonQuorumShape; infer_instance

instance (body : Bytes) (L : List Instruction) : Decidable (quorumShape body L) := by
  unfold quorumShape; infer_instance

instance (body : Bytes) (L : List Instruction) (v : Int) :
    Decidable (nonQuorumMarker body L v) := by
  unfold nonQuorumMarker; infer_instance

instance (body : Bytes) (L : List Instruction) (v : Int) :
    Decidable (quorumMarker body L v) := by
  unfold quorumMarker; infer_instance

/-- Either a list of exactly `n` byte strings and no error, or nil and an
error. -/
def Outcome.allOrNothing (o : Outcome) (n : Nat) : Prop :=
  (∃ result, o = .ret (some result) none ∧ result.length = n) ∨ ∃ err, o = .ret none (some err)

/-- The argument is integer-tagged: its field `I` is set. -/
def ContractArg.isInteger : ContractArg → Bool
  | .I _ => true
  | .S _ => false

/-- The argument is byte-string-tagged: its field `S` is set. -/
def ContractArg.isByteString : ContractArg → Bool
  | .I _ => false
  | .S _ => true

/-- The declared type of the parameter is `Amount` or `Integer`. -/
def Param.isIntegerType (p : Param) : Bool :=
  p.Typ == "Amount" || p.Typ == "Integer"

/-- The declared type of the parameter is `Asset`, `Program` or `PublicKey`. -/
def Param.isByteStringType (p : Param) : Bool :=
  p.Typ == "Asset" || p.Typ == "Program" || p.Typ == "PublicKey"

/-- There are as many arguments as parameters, and the i-th argument is
integer-tagged exactly when the i-th parameter is of type `Amount` or `Integer`,
byte-string-tagged exactly when it is of type `Asset`, `Program` or
`PublicKey`. -/
def tagsMatch (params : List Param) (args : List ContractArg) : Bool :=
  params.length == args.length &&
    (params.zip args).all fun pa =>
      pa.2.isInteger == pa.1.isIntegerType && pa.2.isByteString == pa.1.isByteStringType

/-- The error of the decode-as-integer helper on a payload, if it returns
one. -/
def asInt64Error (b : Bytes) : Option VMError :=
  match AsInt64 b with
  | .error e => some e
  | .ok _ => none

/-- Every check of a decoder of a template that is not quorum-flagged before the
decoding of the marker passes, and the decode-as-integer helper returns the
error `e` on the marker payload. -/
def nonQuorumMarkerError (body : Bytes) (L : List Instruction) (e : VMError) : Prop :=
  L.length = 9 ∧ (∀ x ∈ L.take 5, x.IsPushdata = true) ∧
  L[5]?.map (fun x => x.Op) = some OP_DEPTH ∧
  L[6]?.map (fun x => x.IsPushdata) = some true ∧
  L[6]?.map (fun x => x.Data) = some body ∧
  L[7]?.map (fun x => x.IsPushdata) = some true ∧
  (L[7]?.bind fun x => asInt64Error x.Data) = some e

/-- Every check of the decoder of a quorum-flagged template before the decoding
of the marker passes, and the decode-as-integer helper returns the error `e` on
the marker payload. -/
def quorumMarkerError (body : Bytes) (L : List Instruction) (e : VMError) : Prop :=
  L.length = 9 ∧ (∀ x ∈ L.take 4, x.IsPushdata = true) ∧
  L[4]?.map (fun x => x.IsPushdata) = some true ∧
  L[4]?.map (fun x => x.Data) = some body ∧
  L[5]?.map (fun x => x.Op) = some OP_DEPTH ∧
  L[6]?.map (fun x => x.Op) = some OP_OVER ∧
  L[7]?.map (fun x => x.IsPushdata) = some true ∧
  (L[7]?.bind fun x => asInt64Error x.Data) = some e

instance (body : Bytes) (L : List Instruction) (e : VMError) :
    Decidable (nonQuorumMarkerError body L e) := by
  unfold nonQuorumMarkerError; infer_instance

instance (body : Bytes) (L : List Instruction) (e : VMError) :
    Decidable (quorumMarkerError body L e) := by
  unfold quorumMarkerError; infer_instance

/-- The first check that fails in a decoder of a template that is not
quorum-flagged is the kind of an epilogue instruction: 9 instructions, 5
leading pushdata, and then no `DEPTH` at 5, or no pushdata at 6, or (after the
body check) no pushdata at 7, or (after a marker that decodes as 0) no
`CHECKPREDICATE` at 8. -/
def nonQuorumKindMismatch (body : Bytes) (L : List Instruction) : Prop :=
  L.length = 9 ∧ (∀ x ∈ L.take 5, x.IsPushdata = true) ∧
  (L[5]?.map (fun x => x.Op) ≠ some OP_DEPTH ∨
   (L[5]?.map (fun x => x.Op) = some OP_DEPTH ∧
     L[6]?.map (fun x => x.IsPushdata) = some false) ∨
   (L[5]?.map (fun x => x.Op) = some OP_DEPTH ∧
     L[6]?.map (fun x => x.IsPushdata) = some true ∧
     L[6]?.map (fun x => x.Data) = some body ∧
     L[7]?.map (fun x => x.IsPushdata) = some false) ∨
   (nonQuorumMarker body L 0 ∧ L[8]?.map (fun x => x.Op) ≠ some OP_CHECKPREDICATE))

/-- The first check that fails in the decoder of a quorum-flagged template is
the kind of an epilogue instruction after the body: 9 instructions, 4 leading
pushdata, a pushdata of the body at 4, and then no `DEPTH` at 5, or no `OVER`
at 6, or no pushdata at 7, or (after a marker that decodes as 0) no
`CHECKPREDICATE` at 8. -/
def quorumKindMismatch (body : Bytes) (L : List Instruction) : Prop :=
  L.length = 9 ∧ (∀ x ∈ L.take 4, x.IsPushdata = true) ∧
  L[4]?.map (fun x => x.IsPushdata) = some true ∧
  L[4]?.map (fun x => x.Data) = some body ∧
  (L[5]?.map (fun x => x.Op) ≠ some OP_DEPTH ∨
   (L[5]?.map (fun x => x.Op) = some OP_DEPTH ∧
     L[6]?.map (fun x => x.Op) ≠ some OP_OVER) ∨
   (L[5]?.map (fun x => x.Op) = some OP_DEPTH ∧
     L[6]?.map (fun x => x.Op) = some OP_OVER ∧
     L[7]?.map (fun x => x.IsPushdata) = some false) ∨
   (quorumMarker body L 0 ∧ L[8]?.map (fun x => x.Op) ≠ some OP_CHECKPREDICATE))

/-- The first check that fails in the decoder of a quorum-flagged template is
the kind of the instruction at the body position: 9 instructions, 4 leading
pushdata, and no pushdata at 4. -/
def quorumBodyKindMismatch (L : List Instruction) : Prop :=
  L.length = 9 ∧ (∀ x ∈ L.take 4, x.IsPushdata = true) ∧
  L[4]?.map (fun x => x.IsPushdata) = some false

instance (body : Bytes) (L : List Instruction) : Decidable (nonQuorumKindMismatch body L) := by
  unfold nonQuorumKindMismatch; infer_instance

instance (body : Bytes) (L : List Instruction) : Decidable (quorumKindMismatch body L) := by
  unfold quorumKindMismatch; infer_instance

instance (L : List Instruction) : Decidable (quorumBodyKindMismatch L) := by
  unfold quorumBodyKindMismatch; infer_instance

/-- A 22-byte seller program for the concrete scenario. -/
def scenarioSeller : Bytes :=
  0x00 :: 0x14 :: List.replicate 20 0xab

/-- A 32-byte buyer key for the concrete scenario. -/
def scenarioBuyerKey : Bytes :=
  List.replicate 32 0xcd

/-- The script of `PayToCallOption` for the strike price 100, the zero asset,
`scenarioSeller`, `scenarioBuyerKey` and the block height 500000. -/
def scenarioScript : Bytes :=
  [0x01, 0x64] ++ (0x20 :: List.replicate 32 0) ++ (0x16 :: scenarioSeller) ++
    (0x20 :: scenarioBuyerKey) ++ [0x03, 0x20, 0xa1, 0x07] ++ [OP_DEPTH] ++
    (0x2c :: CallOptionBodyBytes) ++ [OP_0, OP_CHECKPREDICATE]

/-- The payloads of the leading `n` instructions of a program, nil when the
disassembler fails. -/
def leadingPayloads (n : Nat) (prog : Bytes) : Option (List Bytes) :=
  match ParseProgram prog with
  | .ok insts => some ((insts.take n).map fun x => x.Data)
  | .error _ => none

/-- A program with five empty pushes, the epilogue of `CallOption`, and the zero
marker pushed as the one-byte payload `00` (opcode `DATA_1`) instead of the
empty push. -/
def nonCanonicalCallOptionScript : Bytes :=
  [OP_0, OP_0, OP_0, OP_0, OP_0] ++ [OP_DEPTH] ++ (0x2c :: CallOptionBodyBytes) ++
    [OP_DATA_1, 0x00] ++ [OP_CHECKPREDICATE]

/-- A program with five empty pushes, the epilogue of `LoanCollateral`, and the
zero marker pushed as the one-byte payload `00`. -/
def nonCanonicalLoanCollateralScript : Bytes :=
  [OP_0, OP_0, OP_0, OP_0, OP_0] ++ [OP_DEPTH] ++ (0x26 :: LoanCollateralBodyBytes) ++
    [OP_DATA_1, 0x00] ++ [OP_CHECKPREDICATE]

/-- A program with four empty pushes, the epilogue of `PriceChanger`, and the
zero marker pushed as the one-byte payload `00`. -/
def nonCanonicalPriceChangerScript : Bytes :=
  [OP_0, OP_0, OP_0, OP_0] ++ (0x3a :: PriceChangerBodyBytes) ++ [OP_DEPTH, OP_OVER] ++
    [OP_DATA_1, 0x00] ++ [OP_CHECKPREDICATE]

/-- A program with the canonical epilogue of `CallOption` whose block height
position, the last argument push, holds a payload of 9 bytes, more than a signed
64-bit integer has. -/
def nonCanonicalIntegerScript : Bytes :=
  [OP_0, OP_0, OP_0, OP_0] ++ (0x09 :: List.replicate 9 0xff) ++ [OP_DEPTH] ++
    (0x2c :: CallOptionBodyBytes) ++ [OP_0, OP_CHECKPREDICATE]

/-- Instruction `i` of a program, nil when the disassembler fails or the program
is shorter. -/
def instructionAt (i : Nat) (prog : Bytes) : Option Instruction :=
  match ParseProgram prog with
  | .ok insts => insts[i]?
  | .error _ => none

theorem ParsePayToCallOptionInsts_eq (insts : List Instruction) :
    ParsePayToCallOptionInsts insts =
      decodeNonQuorum CallOptionBodyBytes (.fmt "body bytes do not match CallOption") insts :=
  rfl

theorem ParsePayToLoanCollateralInsts_eq (insts : List Instruction) :
    ParsePayToLoanCollateralInsts insts =
      decodeNonQuorum LoanCollateralBodyBytes (.fmt "body bytes do not match LoanCollateral")
        insts :=
  rfl

/-- The argument loop on `n` leading pushdata instructions: the code after the
loop runs on the remaining instructions, with the payloads appended in order. -/
theorem argLoop_pushdata (n : Nat) (pre rest : List Instruction) (result : List Bytes)
    (k : List Instruction → List Bytes → Outcome)
    (h : ∀ x ∈ pre, x.IsPushdata = true) (hn : pre.length = n) :
    argLoop n (pre ++ rest) result k = k rest (result ++ pre.map (fun x => x.Data)) := by
  subst hn
  induction pre generalizing result with
  | nil => simp [argLoop]
  | cons a pre ih =>
    have ha : a.IsPushdata = true := h a (by simp)
    have hp : ∀ x ∈ pre, x.IsPushdata = true := fun x hx => h x (by simp [hx])
    simp [argLoop, index, ha, ih (result ++ [a.Data]) hp]

/-- The argument loop runs out of instructions. -/
theorem argLoop_short (n : Nat) (pre : List Instruction) (result : List Bytes)
    (k : List Instruction → List Bytes → Outcome)
    (h : ∀ x ∈ pre, x.IsPushdata = true) (hn : pre.length < n) :
    argLoop n pre result k = .ret none (some (.fmt "program too short")) := by
  induction pre generalizing result n with
  | nil =>
    cases n with
    | zero => omega
    | succ n => simp [argLoop]
  | cons a pre ih =>
    cases n with
    | zero => omega
    | succ n =>
      have ha : a.IsPushdata = true := h a (by simp)
      have hp : ∀ x ∈ pre, x.IsPushdata = true := fun x hx => h x (by simp [hx])
      have hn1 : pre.length < n := by simpa using hn
      simp [argLoop, index, ha, ih n (result ++ [a.Data]) hp hn1]

/-- The argument loop meets an instruction that is not a pushdata. -/
theorem argLoop_not_pushdata (n : Nat) (pre : List Instruction) (x : Instruction)
    (rest : List Instruction) (result : List Bytes)
    (k : List Instruction → List Bytes → Outcome)
    (h : ∀ y ∈ pre, y.IsPushdata = true) (hx : x.IsPushdata = false) (hn : pre.length < n) :
    argLoop n (pre ++ x :: rest) result k = .ret none (some (.fmt "too few arguments")) := by
  induction pre generalizing result n with
  | nil =>
    cases n with
    | zero => omega
    | succ n => simp [argLoop, index, hx]
  | cons a pre ih =>
    cases n with
    | zero => omega
    | succ n =>
      have ha : a.IsPushdata = true := h a (by simp)
      have hp : ∀ y ∈ pre, y.IsPushdata = true := fun y hy => h y (by simp [hy])
      have hn1 : pre.length < n := by simpa using hn
      simp [argLoop, index, ha, ih n (result ++ [a.Data]) hp hn1]

/-- Every instruction list either starts with `n` pushdata instructions, or is
shorter and all pushdata, or has a first instruction that is not a pushdata among
its first `n`. -/
theorem pushdata_split (n : Nat) (L : List Instruction) :
    (∃ pre rest, L = pre ++ rest ∧ pre.length = n ∧ ∀ x ∈ pre, x.IsPushdata = true) ∨
    (L.length < n ∧ ∀ x ∈ L, x.IsPushdata = true) ∨
    (∃ pre x rest, L = pre ++ x :: rest ∧ pre.length < n ∧
      (∀ y ∈ pre, y.IsPushdata = true) ∧ x.IsPushdata = false) := by
  induction n generalizing L with
  | zero => exact Or.inl ⟨[], L, by simp⟩
  | succ n ih =>
    cases L with
    | nil => exact Or.inr (Or.inl (by simp))
    | cons a L =>
      by_cases ha : a.IsPushdata = true
      · rcases ih L with ⟨pre, rest, h1, h2, h3⟩ | ⟨h1, h2⟩ | ⟨pre, x, rest, h1, h2, h3, h4⟩
        · refine Or.inl ⟨a :: pre, rest, by simp [h1], by simp [h2], ?_⟩
          intro x hx
          rcases List.mem_cons.mp hx with rfl | hx
          · exact ha
          · exact h3 x hx
        · refine Or.inr (Or.inl ⟨by simpa using h1, ?_⟩)
          intro x hx
          rcases List.mem_cons.mp hx with rfl | hx
          · exact ha
          · exact h2 x hx
        · refine Or.inr (Or.inr ⟨a :: pre, x, rest, by simp [h1], by simpa using h2, ?_, h4⟩)
          intro y hy
          rcases List.mem_cons.mp hy with rfl | hy
          · exact ha
          · exact h3 y hy
      · refine Or.inr (Or.inr ⟨[], a, L, by simp, by simp, by simp, ?_⟩)
        simpa using ha

/-- A list of length 4 is a list of four elements. -/
theorem length_four {α : Type} (l : List α) (h : l.length = 4) :
    ∃ a b c d, l = [a, b, c, d] := by
  match l, h with
  | [a, b, c, d], _ => exact ⟨a, b, c, d, rfl⟩

/-- A list of length 5 is a list of five elements. -/
theorem length_five {α : Type} (l : List α) (h : l.length = 5) :
    ∃ a b c d e, l = [a, b, c, d, e] := by
  match l, h with
  | [a, b, c, d, e], _ => exact ⟨a, b, c, d, e, rfl⟩

/-- The decoder accepts the shape, and returns the first five payloads. -/
theorem decodeNonQuorum_of_shape (body : Bytes) (mismatch : Error) (L : List Instruction)
    (h : nonQuorumShape body L) :
    decodeNonQuorum body mismatch L = .ret (some ((L.take 5).map fun x => x.Data)) none := by
  obtain ⟨hlen, hargs, h5, h6, h6d, h7, h7v, h8⟩ := h
  obtain ⟨pre, hpre⟩ : ∃ pre, pre = L.take 5 := ⟨_, rfl⟩
  obtain ⟨rest, hrest⟩ : ∃ rest, rest = L.drop 5 := ⟨_, rfl⟩
  have hL : L = pre ++ rest := by rw [hpre, hrest, List.take_append_drop]
  have hprelen : pre.length = 5 := by rw [hpre, List.length_take]; omega
  have hrestlen : rest.length = 4 := by rw [hrest, List.length_drop]; omega
  obtain ⟨d, b, z, c, rfl⟩ := length_four rest hrestlen
  rw [← hpre] at hargs ⊢
  subst hL
  rw [decodeNonQuorum, argLoop_pushdata 5 _ _ _ _ hargs hprelen]
  simp only [List.getElem?_append_right, hprelen, le_refl, Nat.le_succ_of_le,
    Nat.reduceLeDiff] at h5 h6 h6d h7 h7v h8
  simp at h5 h6 h6d h7 h7v h8
  cases hv : AsInt64 z.Data with
  | error e => simp [hv, Except.toOption] at h7v
  | ok v =>
    simp [hv, Except.toOption] at h7v
    simp [epilogueNonQuorum, index, h5, h6, h6d, h7, hv, h7v, h8]

/-- The decoder accepts nothing but the shape. -/
theorem shape_of_decodeNonQuorum (body : Bytes) (mismatch : Error) (L : List Instruction)
    (h : (decodeNonQuorum body mismatch L).succeeds) : nonQuorumShape body L := by
  obtain ⟨r, hr⟩ := h
  rcases pushdata_split 5 L with ⟨pre, rest, rfl, hlen, hargs⟩ | ⟨hlen, hall⟩ |
    ⟨pre, x, rest, rfl, hlen, hall, hx⟩
  · rw [decodeNonQuorum, argLoop_pushdata 5 _ _ _ _ hargs hlen] at hr
    by_cases h4 : rest.length = 4
    · obtain ⟨d, b, z, c, rfl⟩ := length_four rest h4
      obtain ⟨a0, a1, a2, a3, a4, rfl⟩ := length_five pre hlen
      simp only [epilogueNonQuorum, index] at hr
      cases hv : AsInt64 z.Data with
      | error e =>
        simp [hv] at hr
        split_ifs at hr <;> simp at hr
      | ok v =>
        simp [hv] at hr
        split_ifs at hr with h1 h2 h3 h4 h5 h6 <;> try (simp at hr; done)
        simp at hargs
        simp [nonQuorumShape, hargs, hv, Except.toOption]
        simp_all
    · simp [epilogueNonQuorum, h4] at hr
  · rw [decodeNonQuorum, argLoop_short 5 L [] _ hall hlen] at hr
    simp at hr
  · rw [decodeNonQuorum, argLoop_not_pushdata 5 pre x rest [] _ hall hx hlen] at hr
    simp at hr

theorem ParsePayToPriceChangerInsts_eq (insts : List Instruction) :
    ParsePayToPriceChangerInsts insts =
      decodeQuorum PriceChangerBodyBytes (.fmt "body bytes do not match PriceChanger") insts :=
  rfl

/-- The quorum decoder accepts the shape, and returns the first four payloads. -/
theorem decodeQuorum_of_shape (body : Bytes) (mismatch : Error) (L : List Instruction)
    (h : quorumShape body L) :
    decodeQuorum body mismatch L = .ret (some ((L.take 4).map fun x => x.Data)) none := by
  obtain ⟨hlen, hargs, h4, h4d, h5, h6, h7, h7v, h8⟩ := h
  obtain ⟨pre, hpre⟩ : ∃ pre, pre = L.take 4 := ⟨_, rfl⟩
  obtain ⟨rest, hrest⟩ : ∃ rest, rest = L.drop 4 := ⟨_, rfl⟩
  have hL : L = pre ++ rest := by rw [hpre, hrest, List.take_append_drop]
  have hprelen : pre.length = 4 := by rw [hpre, List.length_take]; omega
  have hrestlen : rest.length = 5 := by rw [hrest, List.length_drop]; omega
  obtain ⟨b, d, o, z, c, rfl⟩ := length_five rest hrestlen
  rw [← hpre] at hargs ⊢
  subst hL
  rw [decodeQuorum, argLoop_pushdata 4 _ _ _ _ hargs hprelen]
  simp only [List.getElem?_append_right, hprelen, le_refl, Nat.le_succ_of_le,
    Nat.reduceLeDiff] at h4 h4d h5 h6 h7 h7v h8
  simp at h4 h4d h5 h6 h7 h7v h8
  cases hv : AsInt64 z.Data with
  | error e => simp [hv, Except.toOption] at h7v
  | ok v =>
    simp [hv, Except.toOption] at h7v
    simp [epilogueQuorum, index, h4, h4d, h5, h6, h7, hv, h7v, h8]

/-- The quorum decoder accepts nothing but the shape. -/
theorem shape_of_decodeQuorum (body : Bytes) (mismatch : Error) (L : List Instruction)
    (h : (decodeQuorum body mismatch L).succeeds) : quorumShape body L := by
  obtain ⟨r, hr⟩ := h
  rcases pushdata_split 4 L with ⟨pre, rest, rfl, hlen, hargs⟩ | ⟨hlen, hall⟩ |
    ⟨pre, x, rest, rfl, hlen, hall, hx⟩
  · rw [decodeQuorum, argLoop_pushdata 4 _ _ _ _ hargs hlen] at hr
    by_cases h5 : rest.length = 5
    · obtain ⟨b, d, o, z, c, rfl⟩ := length_five rest h5
      obtain ⟨a0, a1, a2, a3, rfl⟩ := length_four pre hlen
      simp only [epilogueQuorum, index] at hr
      cases hv : AsInt64 z.Data with
      | error e =>
        simp [hv] at hr
        split_ifs at hr <;> simp at hr
      | ok v =>
        simp [hv] at hr
        split_ifs at hr with h1 h2 h3 h4 h5 h6 h7 <;> try (simp at hr; done)
        simp at hargs
        simp [quorumShape, hargs, hv, Except.toOption]
        simp_all
    · cases rest with
      | nil => simp [epilogueQuorum] at hr
      | cons b rest =>
        have h4 : rest.length ≠ 4 := by simpa using h5
        simp only [epilogueQuorum, index] at hr
        simp [h4] at hr
        split_ifs at hr <;> simp at hr
  · rw [decodeQuorum, argLoop_short 4 L [] _ hall hlen] at hr
    simp at hr
  · rw [decodeQuorum, argLoop_not_pushdata 4 pre x rest [] _ hall hx hlen] at hr
    simp at hr

/-! ## The disassembler on encoded instructions -/

theorem takeData_length (op n : Nat) (rest : Bytes) (inst : Instruction) (rest1 : Bytes)
    (h : takeData op n rest = .ok (inst, rest1)) : rest1.length ≤ rest.length := by
  unfold takeData at h
  split_ifs at h
  simp only [Except.ok.injEq, Prod.mk.injEq] at h
  rw [← h.2, List.length_drop]
  omega

/-- Every instruction takes at least one byte. -/
theorem ParseOp_length (prog : Bytes) (inst : Instruction) (rest : Bytes)
    (h : ParseOp prog = .ok (inst, rest)) : rest.length < prog.length := by
  cases prog with
  | nil => simp [ParseOp] at h
  | cons opcode tl =>
    simp only [ParseOp] at h
    split_ifs at h
    · simp only [Except.ok.injEq, Prod.mk.injEq] at h
      simp [← h.2]
    · have := takeData_length _ _ _ _ _ h
      simp only [List.length_cons]; omega
    · split at h
      · have := takeData_length _ _ _ _ _ h
        simp only [List.length_cons] at this ⊢; omega
      · simp at h
    · split at h
      · have := takeData_length _ _ _ _ _ h
        simp only [List.length_cons] at this ⊢; omega
      · simp at h
    · split at h
      · have := takeData_length _ _ _ _ _ h
        simp only [List.length_cons] at this ⊢; omega
      · simp at h
    · have := takeData_length _ _ _ _ _ h
      simp only [List.length_cons]; omega
    · simp only [Except.ok.injEq, Prod.mk.injEq] at h
      simp [← h.2]

/-- The loop of the disassembler does not depend on the fuel once the fuel
reaches the length of the program. -/
theorem ParseProgramLoop_fuel (fuel : Nat) (prog : Bytes) (h : prog.length ≤ fuel) :
    ParseProgramLoop fuel prog = ParseProgramLoop prog.length prog := by
  induction fuel using Nat.strong_induction_on generalizing prog with
  | _ fuel ih =>
    cases prog with
    | nil => cases fuel <;> simp [ParseProgramLoop]
    | cons opcode tl =>
      cases fuel with
      | zero => simp at h
      | succ fuel =>
        simp only [List.length_cons, ParseProgramLoop]
        cases hop : ParseOp (opcode :: tl) with
        | error e => rfl
        | ok p =>
          obtain ⟨inst, rest⟩ := p
          have hlen := ParseOp_length _ _ _ hop
          simp only [List.length_cons] at hlen h
          have h1 : ParseProgramLoop fuel rest = ParseProgramLoop rest.length rest :=
            ih fuel (by omega) rest (by omega)
          have h2 : ParseProgramLoop tl.length rest = ParseProgramLoop rest.length rest :=
            ih tl.length (by omega) rest (by omega)
          simp only [h1, h2]

/-- The disassembler reads one instruction and goes on with the rest. -/
theorem ParseProgram_step (prog : Bytes) (inst : Instruction) (rest : Bytes)
    (h : ParseOp prog = .ok (inst, rest)) :
    ParseProgram prog =
      match ParseProgram rest with
      | .error e => .error e
      | .ok insts => .ok (inst :: insts) := by
  cases prog with
  | nil => simp [ParseOp] at h
  | cons opcode tl =>
    have hlen := ParseOp_length _ _ _ h
    simp only [List.length_cons] at hlen
    simp only [ParseProgram, List.length_cons, ParseProgramLoop, h]
    rw [ParseProgramLoop_fuel tl.length rest (by omega)]

/-- The disassembler fails where one instruction cannot be read. -/
theorem ParseProgram_error (prog : Bytes) (e : VMError) (hne : prog ≠ [])
    (h : ParseOp prog = .error e) : ParseProgram prog = .error e := by
  cases prog with
  | nil => exact absurd rfl hne
  | cons opcode tl => simp only [ParseProgram, List.length_cons, ParseProgramLoop, h]

theorem ParseProgram_nil : ParseProgram [] = .ok [] := rfl

theorem pushdataOp_le (l : Nat) : pushdataOp l ≤ OP_PUSHDATA4 := by
  unfold pushdataOp
  split_ifs <;> simp only [OP_0, OP_DATA_1, OP_PUSHDATA1, OP_PUSHDATA2, OP_PUSHDATA4] <;> omega

theorem encodes_OP_0 : Encodes [OP_0] ⟨OP_0, []⟩ := by
  refine ⟨by simp, fun rest => by simp [ParseOp], fun j h0 hj => ?_⟩
  simp at hj; omega

theorem encodes_OP_DEPTH : Encodes [OP_DEPTH] ⟨OP_DEPTH, []⟩ := by
  refine ⟨by simp, fun rest => by
    simp [ParseOp, OP_1, OP_16, OP_DATA_1, OP_DATA_75, OP_PUSHDATA1, OP_PUSHDATA2, OP_PUSHDATA4,
      OP_JUMP, OP_JUMPIF, OP_DEPTH, OP_OVER, OP_CHECKPREDICATE],
    fun j h0 hj => ?_⟩
  simp at hj; omega

theorem encodes_OP_OVER : Encodes [OP_OVER] ⟨OP_OVER, []⟩ := by
  refine ⟨by simp, fun rest => by
    simp [ParseOp, OP_1, OP_16, OP_DATA_1, OP_DATA_75, OP_PUSHDATA1, OP_PUSHDATA2, OP_PUSHDATA4,
      OP_JUMP, OP_JUMPIF, OP_DEPTH, OP_OVER, OP_CHECKPREDICATE],
    fun j h0 hj => ?_⟩
  simp at hj; omega

theorem encodes_OP_CHECKPREDICATE : Encodes [OP_CHECKPREDICATE] ⟨OP_CHECKPREDICATE, []⟩ := by
  refine ⟨by simp, fun rest => by
    simp [ParseOp, OP_1, OP_16, OP_DATA_1, OP_DATA_75, OP_PUSHDATA1, OP_PUSHDATA2, OP_PUSHDATA4,
      OP_JUMP, OP_JUMPIF, OP_DEPTH, OP_OVER, OP_CHECKPREDICATE],
    fun j h0 hj => ?_⟩
  simp at hj; omega

theorem takeData_append (op : Nat) (data rest : Bytes) :
    takeData op data.length (data ++ rest) = .ok (⟨op, data⟩, rest) := by
  simp [takeData]

theorem takeData_short (op n : Nat) (data : Bytes) (h : data.length < n) :
    takeData op n data = .error .ErrShortProgram := by
  simp [takeData, h]

/-- The pushdata encoding of a byte string within the size limit is the encoding
of a pushdata instruction with that payload. -/
theorem encodes_PushdataBytes (data : Bytes) (h : data.length ≤ maxPushdataSize) :
    Encodes (PushdataBytes data) ⟨pushdataOp data.length, data⟩ := by
  have hmax : data.length < 2 ^ 32 := by simp only [maxPushdataSize] at h; omega
  unfold PushdataBytes pushdataOp
  simp only
  split_ifs with h0 h75 h8 h16
  · have hd : data = [] := List.length_eq_zero.mp h0
    subst hd
    exact encodes_OP_0
  · refine ⟨by simp, fun rest => ?_, fun j hj0 hj => ?_⟩
    · have hop : OP_DATA_1 + data.length - 1 = data.length := by
        simp only [OP_DATA_1]; omega
      rw [hop]
      have h1 : ¬ (OP_1 ≤ data.length ∧ data.length ≤ OP_16) := by
        simp only [OP_1]; omega
      have h2 : OP_DATA_1 ≤ data.length ∧ data.length ≤ OP_DATA_75 := by
        simp only [OP_DATA_1, OP_DATA_75]; omega
      simp only [List.cons_append, ParseOp, h1, h2, if_true, if_false, and_self]
      exact takeData_append _ _ _
    · have hop : OP_DATA_1 + data.length - 1 = data.length := by
        simp only [OP_DATA_1]; omega
      rw [hop] at hj ⊢
      have h1 : ¬ (OP_1 ≤ data.length ∧ data.length ≤ OP_16) := by
        simp only [OP_1]; omega
      have h2 : OP_DATA_1 ≤ data.length ∧ data.length ≤ OP_DATA_75 := by
        simp only [OP_DATA_1, OP_DATA_75]; omega
      obtain ⟨j, rfl⟩ : ∃ i, j = i + 1 := ⟨j - 1, by omega⟩
      simp only [List.length_cons] at hj
      simp only [List.take_succ_cons, ParseOp, h1, h2, if_true, if_false, and_self]
      exact ⟨_, takeData_short _ _ _ (by rw [List.length_take]; omega)⟩
  · refine ⟨by simp, fun rest => ?_, fun j hj0 hj => ?_⟩
    · simp only [List.cons_append, ParseOp]
      simp
      exact takeData_append _ _ _
    · simp only [List.length_cons] at hj
      obtain ⟨j, rfl⟩ : ∃ i, j = i + 1 := ⟨j - 1, by omega⟩
      cases j with
      | zero => exact ⟨.ErrShortProgram, by
        simp [ParseOp, OP_1, OP_16, OP_DATA_1, OP_DATA_75, OP_PUSHDATA1, OP_PUSHDATA2, OP_PUSHDATA4,
          OP_JUMP, OP_JUMPIF, OP_DEPTH, OP_OVER, OP_CHECKPREDICATE]⟩
      | succ j =>
        simp only [List.take_succ_cons, ParseOp]
        simp
        exact ⟨_, takeData_short _ _ _ (by rw [List.length_take]; omega)⟩
  · have hl : data.length % 256 + 2 ^ 8 * (data.length / 2 ^ 8 % 256) = data.length := by
      omega
    refine ⟨by simp, fun rest => ?_, fun j hj0 hj => ?_⟩
    · simp only [List.cons_append, ParseOp]
      simp only [hl]
      simp
      exact takeData_append _ _ _
    · simp only [List.length_cons] at hj
      obtain ⟨j, rfl⟩ : ∃ i, j = i + 1 := ⟨j - 1, by omega⟩
      rcases j with _ | _ | j
      · exact ⟨.ErrShortProgram, by
        simp [ParseOp, OP_1, OP_16, OP_DATA_1, OP_DATA_75, OP_PUSHDATA1, OP_PUSHDATA2, OP_PUSHDATA4,
          OP_JUMP, OP_JUMPIF, OP_DEPTH, OP_OVER, OP_CHECKPREDICATE]⟩
      · exact ⟨.ErrShortProgram, by
        simp [ParseOp, OP_1, OP_16, OP_DATA_1, OP_DATA_75, OP_PUSHDATA1, OP_PUSHDATA2, OP_PUSHDATA4,
          OP_JUMP, OP_JUMPIF, OP_DEPTH, OP_OVER, OP_CHECKPREDICATE]⟩
      · simp only [List.take_succ_cons, ParseOp]
        simp only [hl]
        simp
        exact ⟨_, takeData_short _ _ _ (by rw [List.length_take]; omega)⟩
  · have hl : data.length % 256 + 2 ^ 8 * (data.length / 2 ^ 8 % 256) +
        2 ^ 16 * (data.length / 2 ^ 16 % 256) + 2 ^ 24 * (data.length / 2 ^ 24 % 256) =
        data.length := by
      omega
    refine ⟨by simp, fun rest => ?_, fun j hj0 hj => ?_⟩
    · simp only [List.cons_append, ParseOp]
      simp only [hl]
      simp
      exact takeData_append _ _ _
    · simp only [List.length_cons] at hj
      obtain ⟨j, rfl⟩ : ∃ i, j = i + 1 := ⟨j - 1, by omega⟩
      rcases j with _ | _ | _ | _ | j
      · exact ⟨.ErrShortProgram, by
        simp [ParseOp, OP_1, OP_16, OP_DATA_1, OP_DATA_75, OP_PUSHDATA1, OP_PUSHDATA2, OP_PUSHDATA4,
          OP_JUMP, OP_JUMPIF, OP_DEPTH, OP_OVER, OP_CHECKPREDICATE]⟩
      · exact ⟨.ErrShortProgram, by
        simp [ParseOp, OP_1, OP_16, OP_DATA_1, OP_DATA_75, OP_PUSHDATA1, OP_PUSHDATA2, OP_PUSHDATA4,
          OP_JUMP, OP_JUMPIF, OP_DEPTH, OP_OVER, OP_CHECKPREDICATE]⟩
      · exact ⟨.ErrShortProgram, by
        simp [ParseOp, OP_1, OP_16, OP_DATA_1, OP_DATA_75, OP_PUSHDATA1, OP_PUSHDATA2, OP_PUSHDATA4,
          OP_JUMP, OP_JUMPIF, OP_DEPTH, OP_OVER, OP_CHECKPREDICATE]⟩
      · exact ⟨.ErrShortProgram, by
        simp [ParseOp, OP_1, OP_16, OP_DATA_1, OP_DATA_75, OP_PUSHDATA1, OP_PUSHDATA2, OP_PUSHDATA4,
          OP_JUMP, OP_JUMPIF, OP_DEPTH, OP_OVER, OP_CHECKPREDICATE]⟩
      · simp only [List.take_succ_cons, ParseOp]
        simp only [hl]
        simp
        exact ⟨_, takeData_short _ _ _ (by rw [List.length_take]; omega)⟩

theorem dropTrailingZeros_length (b : Bytes) : (dropTrailingZeros b).length ≤ b.length := by
  unfold dropTrailingZeros
  rw [List.length_reverse]
  calc (b.reverse.dropWhile fun x => x == 0).length
      ≤ b.reverse.length := (List.dropWhile_sublist _).length_le
    _ = b.length := List.length_reverse b

theorem Int64Bytes_length (n : Int) : (Int64Bytes n).length ≤ 8 := by
  unfold Int64Bytes
  split_ifs
  · simp
  · exact dropTrailingZeros_length _

theorem Int64Bytes_small (n : Int) (h1 : 1 ≤ n) (h16 : n ≤ 16) : Int64Bytes n = [n.toNat] := by
  interval_cases n <;> rfl

/-- The pushdata encoding of an integer is the encoding of a pushdata
instruction whose payload is the minimal-length signed encoding. -/
theorem encodes_PushdataInt64 (n : Int) :
    Encodes (PushdataInt64 n) ⟨int64Op n, Int64Bytes n⟩ := by
  unfold PushdataInt64 int64Op
  split_ifs with h0 h16
  · subst h0
    exact encodes_OP_0
  · rw [Int64Bytes_small n h16.1 h16.2]
    obtain ⟨k, rfl⟩ : ∃ k : Nat, n = k := ⟨n.toNat, by omega⟩
    have hk : 1 ≤ k ∧ k ≤ 16 := by omega
    simp only [Int.toNat_ofNat]
    refine ⟨by simp, fun rest => ?_, fun j hj0 hj => ?_⟩
    · have h1 : OP_1 ≤ OP_1 + k - 1 ∧ OP_1 + k - 1 ≤ OP_16 := by
        simp only [OP_1, OP_16]; omega
      have h2 : OP_1 + k - 1 - OP_1 + 1 = k := by simp only [OP_1]; omega
      simp only [List.cons_append, List.nil_append, ParseOp, h1, and_self, if_true, h2]
    · simp at hj; omega
  · exact encodes_PushdataBytes _ (by
      have := Int64Bytes_length n
      simp only [maxPushdataSize]; omega)

theorem int64Op_IsPushdata (n : Int) (d : Bytes) :
    (Instruction.mk (int64Op n) d).IsPushdata = true := by
  unfold int64Op Instruction.IsPushdata
  split_ifs with h0 h16
  · simp
  · have : OP_1 ≤ OP_1 + n.toNat - 1 ∧ OP_1 + n.toNat - 1 ≤ OP_16 := by
      simp only [OP_1, OP_16]; omega
    simp only [this, and_self, decide_True, Bool.or_true]
  · simp [pushdataOp_le]

theorem pushdataOp_IsPushdata (l : Nat) (d : Bytes) :
    (Instruction.mk (pushdataOp l) d).IsPushdata = true := by
  simp [Instruction.IsPushdata, pushdataOp_le]

theorem ContractArg.inst_IsPushdata (a : ContractArg) : a.inst.IsPushdata = true := by
  cases a with
  | I n => exact int64Op_IsPushdata n _
  | S s => exact pushdataOp_IsPushdata _ _

theorem ContractArg.inst_Data (a : ContractArg) : a.inst.Data = a.payload := by
  cases a <;> rfl

/-- A successful push of an argument is the encoding of its instruction. -/
theorem encodes_pushArg (a : ContractArg) (c : Bytes) (h : pushArg a = .ok c) :
    Encodes c a.inst := by
  cases a with
  | I n =>
    simp only [pushArg, Except.ok.injEq] at h
    subst h
    exact encodes_PushdataInt64 n
  | S s =>
    simp only [pushArg] at h
    split_ifs at h with hs
    simp only [Except.ok.injEq] at h
    subst h
    exact encodes_PushdataBytes s hs

theorem EncodesAll.single (c : Bytes) (inst : Instruction) (h : Encodes c inst) :
    EncodesAll c [inst] := by
  have := EncodesAll.cons c inst [] [] h EncodesAll.nil
  simpa using this

theorem EncodesAll.append (c1 c2 : Bytes) (l1 l2 : List Instruction)
    (h1 : EncodesAll c1 l1) (h2 : EncodesAll c2 l2) : EncodesAll (c1 ++ c2) (l1 ++ l2) := by
  induction h1 with
  | nil => simpa using h2
  | cons c inst cs insts hc _ ih =>
    have := EncodesAll.cons c inst (cs ++ c2) (insts ++ l2) hc ih
    simpa [List.append_assoc] using this

/-- The disassembler reads back the instructions of a concatenation of
encodings. -/
theorem ParseProgram_encodesAll (c : Bytes) (insts : List Instruction)
    (h : EncodesAll c insts) : ParseProgram c = .ok insts := by
  induction h with
  | nil => rfl
  | cons c inst cs insts hc _ ih =>
    rw [ParseProgram_step (c ++ cs) inst cs (hc.2.1 cs), ih]

/-- On a concatenation of encodings cut short, the disassembler fails or reads
fewer instructions: the first `m` of them, for some `m` below their number. -/
theorem ParseProgram_truncated (c : Bytes) (insts : List Instruction)
    (h : EncodesAll c insts) (k : Nat) (hk : k < c.length) :
    (∃ e, ParseProgram (c.take k) = .error e) ∨
    ∃ m, m < insts.length ∧ ParseProgram (c.take k) = .ok (insts.take m) := by
  induction h generalizing k with
  | nil => simp at hk
  | cons c inst cs insts hc _ ih =>
    by_cases hk0 : k = 0
    · subst hk0
      exact Or.inr ⟨0, by simp, by simp [ParseProgram_nil]⟩
    by_cases hkc : k < c.length
    · left
      obtain ⟨e, he⟩ := hc.2.2 k (by omega) hkc
      have htake : (c ++ cs).take k = c.take k := List.take_append_of_le_length (by omega)
      rw [htake]
      refine ⟨e, ParseProgram_error _ e ?_ he⟩
      intro hnil
      have hlen : (c.take k).length = 0 := by rw [hnil]; rfl
      rw [List.length_take] at hlen
      omega
    · have htake : (c ++ cs).take k = c ++ cs.take (k - c.length) := by
        rw [List.take_append_eq_append_take, List.take_of_length_le (by omega)]
      have hk1 : k - c.length < cs.length := by
        simp only [List.length_append] at hk; omega
      rw [htake, ParseProgram_step _ inst _ (hc.2.1 _)]
      rcases ih (k - c.length) hk1 with ⟨e, he⟩ | ⟨m, hm, hp⟩
      · left; exact ⟨e, by rw [he]⟩
      · right
        exact ⟨m + 1, by simp only [List.length_cons]; omega, by rw [hp]; rfl⟩

/-- A successful push of a list of arguments is the concatenation of the
encodings of their instructions. -/
theorem encodesAll_pushArgs (args : List ContractArg) (c : Bytes)
    (h : pushArgs args = .ok c) : EncodesAll c (args.map ContractArg.inst) := by
  induction args generalizing c with
  | nil =>
    simp only [pushArgs, Except.ok.injEq] at h
    subst h
    exact EncodesAll.nil
  | cons a rest ih =>
    simp only [pushArgs] at h
    cases ha : pushArg a with
    | error e => simp [ha] at h
    | ok x =>
      cases hr : pushArgs rest with
      | error e => simp [ha, hr] at h
      | ok xs =>
        simp only [ha, hr, Except.ok.injEq] at h
        subst h
        exact EncodesAll.cons x a.inst xs _ (encodes_pushArg a x ha) (ih xs hr)

/-- A script that the compiler returns is the concatenation of the encodings
of its instructions. -/
theorem encodesAll_Instantiate (body : Bytes) (params : List Param) (recursive : Bool)
    (args : List ContractArg) (script : Bytes)
    (h : Instantiate body params recursive args = .ok script) :
    EncodesAll script (scriptInsts body recursive args) := by
  unfold Instantiate at h
  cases ha : pushArgs args with
  | error e => simp [ha] at h
  | ok argBytes =>
    cases hb : pushArg (.S body) with
    | error e => simp [ha, hb] at h
    | ok bodyBytes =>
      have hargs := encodesAll_pushArgs _ _ ha
      have hbody : Encodes bodyBytes ⟨pushdataOp body.length, body⟩ :=
        encodes_pushArg (.S body) bodyBytes hb
      have hzero : PushdataInt64 0 = [OP_0] := rfl
      simp only [ha, hb, hzero] at h
      unfold scriptInsts epilogueInsts
      cases recursive with
      | true =>
        simp only [if_true, Except.ok.injEq] at h
        subst h
        have h1 := EncodesAll.append _ _ _ _ (EncodesAll.single _ _ encodes_OP_0)
          (EncodesAll.single _ _ encodes_OP_CHECKPREDICATE)
        have h2 := EncodesAll.append _ _ _ _ (EncodesAll.single _ _ encodes_OP_OVER) h1
        have h3 := EncodesAll.append _ _ _ _ (EncodesAll.single _ _ encodes_OP_DEPTH) h2
        have h4 := EncodesAll.append _ _ _ _ (EncodesAll.single _ _ hbody) h3
        have h5 := EncodesAll.append _ _ _ _ hargs h4
        simpa [List.append_assoc] using h5
      | false =>
        simp only [Bool.false_eq_true, if_false, Except.ok.injEq] at h
        subst h
        have h1 := EncodesAll.append _ _ _ _ (EncodesAll.single _ _ encodes_OP_0)
          (EncodesAll.single _ _ encodes_OP_CHECKPREDICATE)
        have h2 := EncodesAll.append _ _ _ _ (EncodesAll.single _ _ hbody) h1
        have h3 := EncodesAll.append _ _ _ _ (EncodesAll.single _ _ encodes_OP_DEPTH) h2
        have h4 := EncodesAll.append _ _ _ _ hargs h3
        simpa [List.append_assoc] using h4

theorem Outcome.succeeds_ret (r : Option (List Bytes)) : (Outcome.ret r none).succeeds :=
  ⟨r, rfl⟩

theorem Outcome.fails_ret (e : Error) : (Outcome.ret none (some e)).fails :=
  ⟨e, rfl⟩

/-- A decoder of a template that is not quorum-flagged returns a result and no
error, or an error and no result. -/
theorem decodeNonQuorum_succeeds_or_fails (body : Bytes) (mismatch : Error)
    (L : List Instruction) :
    (decodeNonQuorum body mismatch L).succeeds ∨ (decodeNonQuorum body mismatch L).fails := by
  rcases pushdata_split 5 L with ⟨pre, rest, rfl, hlen, hargs⟩ | ⟨hlen, hall⟩ |
    ⟨pre, x, rest, rfl, hlen, hall, hx⟩
  · rw [decodeNonQuorum, argLoop_pushdata 5 _ _ _ _ hargs hlen]
    by_cases h4 : rest.length = 4
    · obtain ⟨d, b, z, c, rfl⟩ := length_four rest h4
      simp only [epilogueNonQuorum, index]
      cases hv : AsInt64 z.Data with
      | error e =>
        simp [hv]
        split_ifs <;>
          first
          | exact Or.inl (Outcome.succeeds_ret _)
          | exact Or.inr (Outcome.fails_ret _)
      | ok v =>
        simp [hv]
        split_ifs <;>
          first
          | exact Or.inl (Outcome.succeeds_ret _)
          | exact Or.inr (Outcome.fails_ret _)
    · right
      have : epilogueNonQuorum body mismatch rest ([] ++ pre.map fun x => x.Data) =
          .ret none (some (.fmt "program too short")) := by
        simp [epilogueNonQuorum, h4]
      rw [this]
      exact Outcome.fails_ret _
  · right
    rw [decodeNonQuorum, argLoop_short 5 L [] _ hall hlen]
    exact Outcome.fails_ret _
  · right
    rw [decodeNonQuorum, argLoop_not_pushdata 5 pre x rest [] _ hall hx hlen]
    exact Outcome.fails_ret _

/-- The decoder of a quorum-flagged template returns a result and no error, or
an error and no result. -/
theorem decodeQuorum_succeeds_or_fails (body : Bytes) (mismatch : Error)
    (L : List Instruction) :
    (decodeQuorum body mismatch L).succeeds ∨ (decodeQuorum body mismatch L).fails := by
  rcases pushdata_split 4 L with ⟨pre, rest, rfl, hlen, hargs⟩ | ⟨hlen, hall⟩ |
    ⟨pre, x, rest, rfl, hlen, hall, hx⟩
  · rw [decodeQuorum, argLoop_pushdata 4 _ _ _ _ hargs hlen]
    cases rest with
    | nil =>
      right
      have : epilogueQuorum body mismatch [] ([] ++ pre.map fun x => x.Data) =
          .ret none (some (.fmt "program too short")) := by
        simp [epilogueQuorum]
      rw [this]
      exact Outcome.fails_ret _
    | cons b rest =>
      by_cases h4 : rest.length = 4
      · obtain ⟨d, o, z, c, rfl⟩ := length_four rest h4
        simp only [epilogueQuorum, index]
        cases hv : AsInt64 z.Data with
        | error e =>
          simp [hv]
          split_ifs <;>
            first
            | exact Or.inl (Outcome.succeeds_ret _)
            | exact Or.inr (Outcome.fails_ret _)
        | ok v =>
          simp [hv]
          split_ifs <;>
            first
            | exact Or.inl (Outcome.succeeds_ret _)
            | exact Or.inr (Outcome.fails_ret _)
      · right
        simp only [epilogueQuorum, index]
        simp [h4]
        split_ifs <;> exact Outcome.fails_ret _
  · right
    rw [decodeQuorum, argLoop_short 4 L [] _ hall hlen]
    exact Outcome.fails_ret _
  · right
    rw [decodeQuorum, argLoop_not_pushdata 4 pre x rest [] _ hall hx hlen]
    exact Outcome.fails_ret _

theorem Outcome.fails_of_not_succeeds (o : Outcome) (h : o.succeeds ∨ o.fails)
    (hn : ¬ o.succeeds) : o.fails :=
  h.resolve_left hn

theorem Outcome.not_succeeds_of_fails (o : Outcome) (h : o.fails) : ¬ o.succeeds := by
  obtain ⟨e, he⟩ := h
  rintro ⟨r, hr⟩
  rw [he] at hr
  simp at hr

/-! ## Acceptance -/

theorem decodeNonQuorum_iff (body : Bytes) (mismatch : Error) (L : List Instruction)
    (r : Option (List Bytes)) :
    decodeNonQuorum body mismatch L = .ret r none ↔
      nonQuorumShape body L ∧ r = some ((L.take 5).map fun x => x.Data) := by
  constructor
  · intro h
    have hs := shape_of_decodeNonQuorum body mismatch L ⟨r, h⟩
    rw [decodeNonQuorum_of_shape body mismatch L hs] at h
    simp only [Outcome.ret.injEq, and_true] at h
    exact ⟨hs, h.symm⟩
  · rintro ⟨hs, rfl⟩
    exact decodeNonQuorum_of_shape body mismatch L hs

theorem decodeQuorum_iff (body : Bytes) (mismatch : Error) (L : List Instruction)
    (r : Option (List Bytes)) :
    decodeQuorum body mismatch L = .ret r none ↔
      quorumShape body L ∧ r = some ((L.take 4).map fun x => x.Data) := by
  constructor
  · intro h
    have hs := shape_of_decodeQuorum body mismatch L ⟨r, h⟩
    rw [decodeQuorum_of_shape body mismatch L hs] at h
    simp only [Outcome.ret.injEq, and_true] at h
    exact ⟨hs, h.symm⟩
  · rintro ⟨hs, rfl⟩
    exact decodeQuorum_of_shape body mismatch L hs

/-- A decoder returns no error on a program exactly when the disassembler
returns an instruction list on which the rest of the decoder returns no error. -/
theorem parse_ret_iff (decode : List Instruction → Outcome) (prog : Bytes)
    (r : Option (List Bytes)) :
    (match ParseProgram prog with
      | .error err => Outcome.ret none (some (.vm err))
      | .ok insts => decode insts) = .ret r none ↔
      ∃ L, ParseProgram prog = .ok L ∧ decode L = .ret r none := by
  cases h : ParseProgram prog with
  | error e => simp
  | ok L => simp

/-- C2. Acceptance of the decoders of `CallOption` and `LoanCollateral`: the
decoder returns `(r, nil)` exactly when the instruction list has 9 instructions,
the first 5 are pushdata, the 6th is `DEPTH`, the 7th is a pushdata of the body
bytes of the template, the 8th is a pushdata whose payload decodes as 0, the 9th
is `CHECKPREDICATE`, and `r` is the list of the payloads of the first 5
instructions in order. Stated on every instruction list, and on every program
through the disassembler. -/
theorem nonQuorum_acceptance (prog : Bytes) (L : List Instruction) (r : Option (List Bytes)) :
    (ParsePayToCallOptionInsts L = .ret r none ↔
      nonQuorumShape CallOptionBodyBytes L ∧ r = some ((L.take 5).map fun x => x.Data)) ∧
    (ParsePayToLoanCollateralInsts L = .ret r none ↔
      nonQuorumShape LoanCollateralBodyBytes L ∧ r = some ((L.take 5).map fun x => x.Data)) ∧
    (ParsePayToCallOption prog = .ret r none ↔
      ∃ L, ParseProgram prog = .ok L ∧ nonQuorumShape CallOptionBodyBytes L ∧
        r = some ((L.take 5).map fun x => x.Data)) ∧
    (ParsePayToLoanCollateral prog = .ret r none ↔
      ∃ L, ParseProgram prog = .ok L ∧ nonQuorumShape LoanCollateralBodyBytes L ∧
        r = some ((L.take 5).map fun x => x.Data)) := by
  refine ⟨decodeNonQuorum_iff _ _ L r, decodeNonQuorum_iff _ _ L r, ?_, ?_⟩
  · rw [ParsePayToCallOption, parse_ret_iff]
    exact exists_congr fun L => and_congr_right fun _ => decodeNonQuorum_iff _ _ L r
  · rw [ParsePayToLoanCollateral, parse_ret_iff]
    exact exists_congr fun L => and_congr_right fun _ => decodeNonQuorum_iff _ _ L r

/-- C3. Acceptance of the decoder of `PriceChanger`: the decoder returns
`(r, nil)` exactly when the instruction list has 9 instructions, the first 4 are
pushdata, the 5th is a pushdata of `PriceChangerBodyBytes`, the 6th is `DEPTH`,
the 7th is `OVER`, the 8th is a pushdata whose payload decodes as 0, the 9th is
`CHECKPREDICATE`, and `r` is the list of the payloads of the first 4
instructions in order (the body payload is not part of it). Stated on every
instruction list, and on every program through the disassembler. -/
theorem quorum_acceptance (prog : Bytes) (L : List Instruction) (r : Option (List Bytes)) :
    (ParsePayToPriceChangerInsts L = .ret r none ↔
      quorumShape PriceChangerBodyBytes L ∧ r = some ((L.take 4).map fun x => x.Data)) ∧
    (ParsePayToPriceChanger prog = .ret r none ↔
      ∃ L, ParseProgram prog = .ok L ∧ quorumShape PriceChangerBodyBytes L ∧
        r = some ((L.take 4).map fun x => x.Data)) := by
  refine ⟨decodeQuorum_iff _ _ L r, ?_⟩
  rw [ParsePayToPriceChanger, parse_ret_iff]
  exact exists_congr fun L => and_congr_right fun _ => decodeQuorum_iff _ _ L r

/-! ## Round trip -/

/-- The disassembler reads a script of the compiler back as its instructions. -/
theorem ParseProgram_Instantiate (body : Bytes) (params : List Param) (recursive : Bool)
    (args : List ContractArg) (script : Bytes)
    (h : Instantiate body params recursive args = .ok script) :
    ParseProgram script = .ok (scriptInsts body recursive args) :=
  ParseProgram_encodesAll _ _ (encodesAll_Instantiate body params recursive args script h)

theorem AsInt64_nil : AsInt64 [] = .ok 0 := rfl

theorem OP_0_IsPushdata (d : Bytes) : (Instruction.mk OP_0 d).IsPushdata = true := rfl

/-- The instructions of a script with five arguments and the epilogue of a
template that is not quorum-flagged have the shape its decoder accepts. -/
theorem nonQuorumShape_scriptInsts (body : Bytes) (a0 a1 a2 a3 a4 : ContractArg) :
    nonQuorumShape body (scriptInsts body false [a0, a1, a2, a3, a4]) := by
  simp [nonQuorumShape, scriptInsts, epilogueInsts, ContractArg.inst_IsPushdata,
    pushdataOp_IsPushdata, OP_0_IsPushdata, AsInt64_nil, Except.toOption]

/-- The instructions of a script with four arguments and the epilogue of a
quorum-flagged template have the shape its decoder accepts. -/
theorem quorumShape_scriptInsts (body : Bytes) (a0 a1 a2 a3 : ContractArg) :
    quorumShape body (scriptInsts body true [a0, a1, a2, a3]) := by
  simp [quorumShape, scriptInsts, epilogueInsts, ContractArg.inst_IsPushdata,
    pushdataOp_IsPushdata, OP_0_IsPushdata, AsInt64_nil, Except.toOption]

/-- The decoder of a template that is not quorum-flagged on a script that the
compiler built from five arguments: the five payloads, in the order of the
arguments. -/
theorem decodeNonQuorum_Instantiate (body : Bytes) (mismatch : Error) (params : List Param)
    (a0 a1 a2 a3 a4 : ContractArg) (script : Bytes)
    (h : Instantiate body params false [a0, a1, a2, a3, a4] = .ok script) :
    (match ParseProgram script with
      | .error err => Outcome.ret none (some (.vm err))
      | .ok insts => decodeNonQuorum body mismatch insts) =
      .ret (some [a0.payload, a1.payload, a2.payload, a3.payload, a4.payload]) none := by
  rw [ParseProgram_Instantiate body params false _ script h]
  simp only
  rw [decodeNonQuorum_of_shape body mismatch _ (nonQuorumShape_scriptInsts body a0 a1 a2 a3 a4)]
  simp [scriptInsts, ContractArg.inst_Data]

/-- The decoder of a quorum-flagged template on a script that the compiler built
from four arguments: the four payloads, in the order of the arguments. -/
theorem decodeQuorum_Instantiate (body : Bytes) (mismatch : Error) (params : List Param)
    (a0 a1 a2 a3 : ContractArg) (script : Bytes)
    (h : Instantiate body params true [a0, a1, a2, a3] = .ok script) :
    (match ParseProgram script with
      | .error err => Outcome.ret none (some (.vm err))
      | .ok insts => decodeQuorum body mismatch insts) =
      .ret (some [a0.payload, a1.payload, a2.payload, a3.payload]) none := by
  rw [ParseProgram_Instantiate body params true _ script h]
  simp only
  rw [decodeQuorum_of_shape body mismatch _ (quorumShape_scriptInsts body a0 a1 a2 a3)]
  simp [scriptInsts, ContractArg.inst_Data]

/-- C1. Round trip: for each of the three templates and every argument tuple
for which `PayToX` succeeds, `ParsePayToX` of the script returns no error and
exactly `len(params)` byte strings, which are, in declared parameter order, the
pushdata payloads of the arguments: the minimal-length signed encoding of an
Amount or Integer argument, the bytes verbatim of an Asset, Program or PublicKey
argument. -/
theorem round_trip :
    (∀ (strikePrice : Nat) (strikeCurrency : AssetID) (seller buyerKey : Bytes)
        (blockHeight : Int) (script : Bytes),
      PayToCallOption strikePrice strikeCurrency seller buyerKey blockHeight = .ok script →
      ParsePayToCallOption script =
        .ret (some [Int64Bytes (int64 strikePrice), strikeCurrency.Bytes, seller, buyerKey,
          Int64Bytes blockHeight]) none ∧
      [Int64Bytes (int64 strikePrice), strikeCurrency.Bytes, seller, buyerKey,
          Int64Bytes blockHeight] =
        (CallOptionArgs strikePrice strikeCurrency seller buyerKey blockHeight).map
          ContractArg.payload ∧
      ((CallOptionArgs strikePrice strikeCurrency seller buyerKey blockHeight).map
          ContractArg.payload).length = CallOptionParams.length) ∧
    (∀ (assetLoaned : AssetID) (amountLoaned : Nat) (blockHeight : Int)
        (lender borrower : Bytes) (script : Bytes),
      PayToLoanCollateral assetLoaned amountLoaned blockHeight lender borrower = .ok script →
      ParsePayToLoanCollateral script =
        .ret (some [assetLoaned.Bytes, Int64Bytes (int64 amountLoaned), Int64Bytes blockHeight,
          lender, borrower]) none ∧
      [assetLoaned.Bytes, Int64Bytes (int64 amountLoaned), Int64Bytes blockHeight, lender,
          borrower] =
        (LoanCollateralArgs assetLoaned amountLoaned blockHeight lender borrower).map
          ContractArg.payload ∧
      ((LoanCollateralArgs assetLoaned amountLoaned blockHeight lender borrower).map
          ContractArg.payload).length = LoanCollateralParams.length) ∧
    (∀ (askAmount : Nat) (askAsset : AssetID) (sellerKey sellerProg : Bytes) (script : Bytes),
      PayToPriceChanger askAmount askAsset sellerKey sellerProg = .ok script →
      ParsePayToPriceChanger script =
        .ret (some [Int64Bytes (int64 askAmount), askAsset.Bytes, sellerKey, sellerProg])
          none ∧
      [Int64Bytes (int64 askAmount), askAsset.Bytes, sellerKey, sellerProg] =
        (PriceChangerArgs askAmount askAsset sellerKey sellerProg).map ContractArg.payload ∧
      ((PriceChangerArgs askAmount askAsset sellerKey sellerProg).map
          ContractArg.payload).length = PriceChangerParams.length) := by
  refine ⟨?_, ?_, ?_⟩
  · intro strikePrice strikeCurrency seller buyerKey blockHeight script h
    exact ⟨decodeNonQuorum_Instantiate _ _ _ _ _ _ _ _ script h, rfl, rfl⟩
  · intro assetLoaned amountLoaned blockHeight lender borrower script h
    exact ⟨decodeNonQuorum_Instantiate _ _ _ _ _ _ _ _ script h, rfl, rfl⟩
  · intro askAmount askAsset sellerKey sellerProg script h
    exact ⟨decodeQuorum_Instantiate _ _ _ _ _ _ _ script h, rfl, rfl⟩

set_option maxRecDepth 100000 in
/-- Witness of C1 at one script of each template: the amount 7 comes back
first, as the byte 7, and the block height 300 last, as `2c 01`; the amount
`2^64 - 1` comes back as eight bytes `ff`, the block height -2 as
`fe ff ff ff ff ff ff ff`; the amount `2^63` as `00 00 00 00 00 00 00 80`. -/
theorem round_trip_witness :
    (PayToCallOption 7 ⟨0, 0, 0, 0⟩ [0xaa, 0xbb] [0xcc] 300 = .ok sampleCallOptionScript ∧
      ParsePayToCallOption sampleCallOptionScript =
        .ret (some [[7], List.replicate 32 0, [0xaa, 0xbb], [0xcc], [0x2c, 0x01]]) none) ∧
    (PayToLoanCollateral ⟨0, 0, 0, 1⟩ (2 ^ 64 - 1) (-2) [0xaa] PriceChangerBodyBytes =
        .ok sampleLoanCollateralScript ∧
      ParsePayToLoanCollateral sampleLoanCollateralScript =
        .ret (some [List.replicate 31 0 ++ [1],
          [0xff, 0xff, 0xff, 0xff, 0xff, 0xff, 0xff, 0xff],
          [0xfe, 0xff, 0xff, 0xff, 0xff, 0xff, 0xff, 0xff], [0xaa],
          PriceChangerBodyBytes]) none) ∧
    (PayToPriceChanger (2 ^ 63) ⟨1, 0, 0, 0⟩ [0xcc, 0xdd] [] = .ok samplePriceChangerScript ∧
      ParsePayToPriceChanger samplePriceChangerScript =
        .ret (some [[0, 0, 0, 0, 0, 0, 0, 0x80],
          List.replicate 7 0 ++ [1] ++ List.replicate 24 0, [0xcc, 0xdd], []]) none) :=
  ⟨⟨by rfl, (round_trip.1 7 ⟨0, 0, 0, 0⟩ [0xaa, 0xbb] [0xcc] 300
      sampleCallOptionScript (by rfl)).1.trans (by decide)⟩,
    ⟨by rfl, (round_trip.2.1 ⟨0, 0, 0, 1⟩ (2 ^ 64 - 1) (-2) [0xaa]
      PriceChangerBodyBytes sampleLoanCollateralScript (by rfl)).1.trans (by decide)⟩,
    ⟨by rfl, (round_trip.2.2 (2 ^ 63) ⟨1, 0, 0, 0⟩ [0xcc, 0xdd] []
      samplePriceChangerScript (by rfl)).1.trans (by decide)⟩⟩

/-! ## Body substitution and template identification -/

/-- A list of length 9 is a list of nine elements. -/
theorem length_nine {α : Type} (l : List α) (h : l.length = 9) :
    ∃ a0 a1 a2 a3 a4 a5 a6 a7 a8, l = [a0, a1, a2, a3, a4, a5, a6, a7, a8] := by
  match l, h with
  | [a0, a1, a2, a3, a4, a5, a6, a7, a8], _ => exact ⟨a0, a1, a2, a3, a4, a5, a6, a7, a8, rfl⟩

theorem IsPushdata_with_Data (x : Instruction) (b : Bytes) :
    (Instruction.mk x.Op b).IsPushdata = x.IsPushdata := rfl

/-- On an accepted list with the body payload replaced by other bytes, a decoder
of a template that is not quorum-flagged returns the error of the body check. -/
theorem decodeNonQuorum_replacePayload (body : Bytes) (mismatch : Error)
    (L : List Instruction) (b : Bytes) (h : (decodeNonQuorum body mismatch L).succeeds)
    (hb : b ≠ body) :
    decodeNonQuorum body mismatch (replacePayload L 6 b) = .ret none (some mismatch) := by
  have hs := shape_of_decodeNonQuorum body mismatch L h
  obtain ⟨hlen, hargs, h5, h6, h6d, h7, h7v, h8⟩ := hs
  obtain ⟨a0, a1, a2, a3, a4, a5, a6, a7, a8, rfl⟩ := length_nine L hlen
  simp at hargs h5 h6 h6d
  have hpre : ∀ x ∈ [a0, a1, a2, a3, a4], x.IsPushdata = true := by simpa using hargs
  have hL : replacePayload [a0, a1, a2, a3, a4, a5, a6, a7, a8] 6 b =
      [a0, a1, a2, a3, a4] ++ [a5, ⟨a6.Op, b⟩, a7, a8] := by
    simp [replacePayload]
  rw [hL, decodeNonQuorum, argLoop_pushdata 5 _ _ _ _ hpre rfl]
  have hb2 : ¬ body = b := fun e => hb e.symm
  simp [epilogueNonQuorum, index, h5, IsPushdata_with_Data, h6, hb2]

/-- On an accepted list with the body payload replaced by other bytes, the
decoder of a quorum-flagged template returns the error of the body check. -/
theorem decodeQuorum_replacePayload (body : Bytes) (mismatch : Error)
    (L : List Instruction) (b : Bytes) (h : (decodeQuorum body mismatch L).succeeds)
    (hb : b ≠ body) :
    decodeQuorum body mismatch (replacePayload L 4 b) = .ret none (some mismatch) := by
  have hs := shape_of_decodeQuorum body mismatch L h
  obtain ⟨hlen, hargs, h4, h4d, h5, h6, h7, h7v, h8⟩ := hs
  obtain ⟨a0, a1, a2, a3, a4, a5, a6, a7, a8, rfl⟩ := length_nine L hlen
  simp at hargs h4 h4d
  have hpre : ∀ x ∈ [a0, a1, a2, a3], x.IsPushdata = true := by simpa using hargs
  have hL : replacePayload [a0, a1, a2, a3, a4, a5, a6, a7, a8] 4 b =
      [a0, a1, a2, a3] ++ [⟨a4.Op, b⟩, a5, a6, a7, a8] := by
    simp [replacePayload]
  rw [hL, decodeQuorum, argLoop_pushdata 4 _ _ _ _ hpre rfl]
  have hb2 : ¬ body = b := fun e => hb e.symm
  simp [epilogueQuorum, index, IsPushdata_with_Data, h4, hb2]

/-- C4. Body substitution: on every instruction list that `ParsePayToX` accepts,
with the payload of the body pushdata instruction (instruction 6 for
`CallOption` and `LoanCollateral`, instruction 4 for `PriceChanger`) replaced by
any byte string other than the body bytes of `X`, `ParsePayToX` returns nil and
exactly the error `body bytes do not match X`; and the body bytes of the three
templates are pairwise different. -/
theorem body_substitution :
    (∀ (L : List Instruction) (b : Bytes), (ParsePayToCallOptionInsts L).succeeds →
      b ≠ CallOptionBodyBytes →
      ParsePayToCallOptionInsts (replacePayload L 6 b) =
        .ret none (some (.fmt "body bytes do not match CallOption"))) ∧
    (∀ (L : List Instruction) (b : Bytes), (ParsePayToLoanCollateralInsts L).succeeds →
      b ≠ LoanCollateralBodyBytes →
      ParsePayToLoanCollateralInsts (replacePayload L 6 b) =
        .ret none (some (.fmt "body bytes do not match LoanCollateral"))) ∧
    (∀ (L : List Instruction) (b : Bytes), (ParsePayToPriceChangerInsts L).succeeds →
      b ≠ PriceChangerBodyBytes →
      ParsePayToPriceChangerInsts (replacePayload L 4 b) =
        .ret none (some (.fmt "body bytes do not match PriceChanger"))) ∧
    CallOptionBodyBytes ≠ LoanCollateralBodyBytes ∧
    CallOptionBodyBytes ≠ PriceChangerBodyBytes ∧
    LoanCollateralBodyBytes ≠ PriceChangerBodyBytes :=
  ⟨fun L b h hb => decodeNonQuorum_replacePayload _ _ L b h hb,
    fun L b h hb => decodeNonQuorum_replacePayload _ _ L b h hb,
    fun L b h hb => decodeQuorum_replacePayload _ _ L b h hb,
    by decide, by decide, by decide⟩

/-- Witness of C4: each sample script with the body of another template in the
place of its own. -/
theorem body_substitution_witness :
    ParsePayToCallOptionInsts (replacePayload sampleCallOptionInsts 6 LoanCollateralBodyBytes) =
      .ret none (some (.fmt "body bytes do not match CallOption")) ∧
    ParsePayToLoanCollateralInsts
      (replacePayload sampleLoanCollateralInsts 6 PriceChangerBodyBytes) =
      .ret none (some (.fmt "body bytes do not match LoanCollateral")) ∧
    ParsePayToPriceChangerInsts (replacePayload samplePriceChangerInsts 4 CallOptionBodyBytes) =
      .ret none (some (.fmt "body bytes do not match PriceChanger")) :=
  ⟨body_substitution.1 sampleCallOptionInsts LoanCollateralBodyBytes ⟨_, rfl⟩ (by decide),
    body_substitution.2.1 sampleLoanCollateralInsts PriceChangerBodyBytes ⟨_, rfl⟩ (by decide),
    body_substitution.2.2.1 samplePriceChangerInsts CallOptionBodyBytes ⟨_, rfl⟩ (by decide)⟩

/-- A decoder returns no error on a program only if the disassembler returns an
instruction list on which the rest of the decoder returns no error. -/
theorem parse_succeeds (decode : List Instruction → Outcome) (prog : Bytes)
    (h : (match ParseProgram prog with
      | .error err => Outcome.ret none (some (.vm err))
      | .ok insts => decode insts).succeeds) :
    ∃ L, ParseProgram prog = .ok L ∧ (decode L).succeeds := by
  obtain ⟨r, hr⟩ := h
  obtain ⟨L, hL, hd⟩ := (parse_ret_iff decode prog r).mp hr
  exact ⟨L, hL, r, hd⟩

/-- No instruction list has the shape of two templates that are not
quorum-flagged with different bodies. -/
theorem nonQuorumShape_body_unique (body1 body2 : Bytes) (L : List Instruction)
    (h1 : nonQuorumShape body1 L) (h2 : nonQuorumShape body2 L) : body1 = body2 := by
  have e1 := h1.2.2.2.2.1
  have e2 := h2.2.2.2.2.1
  rw [e1] at e2
  exact Option.some.inj e2

/-- No instruction list has the shape of a template that is not quorum-flagged
and the shape of a quorum-flagged one: instruction 6 is a pushdata in the first
and `OVER` in the second. -/
theorem nonQuorumShape_not_quorumShape (body1 body2 : Bytes) (L : List Instruction)
    (h1 : nonQuorumShape body1 L) (h2 : quorumShape body2 L) : False := by
  have e1 := h1.2.2.2.1
  have e2 := h2.2.2.2.2.2.1
  cases h6 : L[6]? with
  | none => simp [h6] at e1
  | some x =>
    simp only [h6, Option.map_some', Option.some.injEq] at e1 e2
    simp only [Instruction.IsPushdata, e2, OP_OVER, OP_PUSHDATA4, OP_1, OP_16] at e1
    simp at e1

/-- C5. Template identification: on every byte program at most one of
`ParsePayToCallOption`, `ParsePayToLoanCollateral` and `ParsePayToPriceChanger`
returns no error. -/
theorem at_most_one_template (prog : Bytes) :
    ¬ ((ParsePayToCallOption prog).succeeds ∧ (ParsePayToLoanCollateral prog).succeeds) ∧
    ¬ ((ParsePayToCallOption prog).succeeds ∧ (ParsePayToPriceChanger prog).succeeds) ∧
    ¬ ((ParsePayToLoanCollateral prog).succeeds ∧ (ParsePayToPriceChanger prog).succeeds) := by
  refine ⟨?_, ?_, ?_⟩
  · rintro ⟨h1, h2⟩
    obtain ⟨L1, hL1, hs1⟩ := parse_succeeds _ prog h1
    obtain ⟨L2, hL2, hs2⟩ := parse_succeeds _ prog h2
    rw [hL1] at hL2
    cases hL2
    have := nonQuorumShape_body_unique _ _ L1 (shape_of_decodeNonQuorum _ _ L1 hs1)
      (shape_of_decodeNonQuorum _ _ L1 hs2)
    exact absurd this (by decide)
  · rintro ⟨h1, h2⟩
    obtain ⟨L1, hL1, hs1⟩ := parse_succeeds _ prog h1
    obtain ⟨L2, hL2, hs2⟩ := parse_succeeds _ prog h2
    rw [hL1] at hL2
    cases hL2
    exact nonQuorumShape_not_quorumShape _ _ L1 (shape_of_decodeNonQuorum _ _ L1 hs1)
      (shape_of_decodeQuorum _ _ L1 hs2)
  · rintro ⟨h1, h2⟩
    obtain ⟨L1, hL1, hs1⟩ := parse_succeeds _ prog h1
    obtain ⟨L2, hL2, hs2⟩ := parse_succeeds _ prog h2
    rw [hL1] at hL2
    cases hL2
    exact nonQuorumShape_not_quorumShape _ _ L1 (shape_of_decodeNonQuorum _ _ L1 hs1)
      (shape_of_decodeQuorum _ _ L1 hs2)

/-! ## Epilogue shape -/

/-- A quorum decoder fails on the instructions of every script with five
arguments and the epilogue of a template that is not quorum-flagged. -/
theorem decodeQuorum_nonQuorum_script (body body1 : Bytes) (mismatch : Error)
    (a0 a1 a2 a3 a4 : ContractArg) :
    (decodeQuorum body1 mismatch (scriptInsts body false [a0, a1, a2, a3, a4])).fails := by
  refine Outcome.fails_of_not_succeeds _ (decodeQuorum_succeeds_or_fails _ _ _) ?_
  intro h
  exact nonQuorumShape_not_quorumShape body body1 _
    (nonQuorumShape_scriptInsts body a0 a1 a2 a3 a4) (shape_of_decodeQuorum _ _ _ h)

/-- A decoder of a template that is not quorum-flagged fails on the instructions
of every script with four arguments and the quorum epilogue. -/
theorem decodeNonQuorum_quorum_script (body body1 : Bytes) (mismatch : Error)
    (a0 a1 a2 a3 : ContractArg) :
    (decodeNonQuorum body1 mismatch (scriptInsts body true [a0, a1, a2, a3])).fails := by
  refine Outcome.fails_of_not_succeeds _ (decodeNonQuorum_succeeds_or_fails _ _ _) ?_
  intro h
  exact nonQuorumShape_not_quorumShape body1 body _ (shape_of_decodeNonQuorum _ _ _ h)
    (quorumShape_scriptInsts body a0 a1 a2 a3)

/-- C6. Epilogue-shape mismatch: `ParsePayToPriceChanger` returns an error (and
nil) on every script of `PayToCallOption` and of `PayToLoanCollateral`, and
`ParsePayToCallOption` and `ParsePayToLoanCollateral` each return an error (and
nil) on every script of `PayToPriceChanger`, whatever the arguments are. -/
theorem epilogue_shape_mismatch :
    (∀ (strikePrice : Nat) (strikeCurrency : AssetID) (seller buyerKey : Bytes)
        (blockHeight : Int) (script : Bytes),
      PayToCallOption strikePrice strikeCurrency seller buyerKey blockHeight = .ok script →
      (ParsePayToPriceChanger script).fails) ∧
    (∀ (assetLoaned : AssetID) (amountLoaned : Nat) (blockHeight : Int)
        (lender borrower : Bytes) (script : Bytes),
      PayToLoanCollateral assetLoaned amountLoaned blockHeight lender borrower = .ok script →
      (ParsePayToPriceChanger script).fails) ∧
    (∀ (askAmount : Nat) (askAsset : AssetID) (sellerKey sellerProg : Bytes) (script : Bytes),
      PayToPriceChanger askAmount askAsset sellerKey sellerProg = .ok script →
      (ParsePayToCallOption script).fails ∧ (ParsePayToLoanCollateral script).fails) := by
  refine ⟨?_, ?_, ?_⟩
  · intro strikePrice strikeCurrency seller buyerKey blockHeight script h
    unfold ParsePayToPriceChanger
    rw [ParseProgram_Instantiate _ _ _ _ script h]
    exact decodeQuorum_nonQuorum_script _ _ _ _ _ _ _ _
  · intro assetLoaned amountLoaned blockHeight lender borrower script h
    unfold ParsePayToPriceChanger
    rw [ParseProgram_Instantiate _ _ _ _ script h]
    exact decodeQuorum_nonQuorum_script _ _ _ _ _ _ _ _
  · intro askAmount askAsset sellerKey sellerProg script h
    unfold ParsePayToCallOption ParsePayToLoanCollateral
    rw [ParseProgram_Instantiate _ _ _ _ script h]
    exact ⟨decodeNonQuorum_quorum_script _ _ _ _ _ _ _,
      decodeNonQuorum_quorum_script _ _ _ _ _ _ _⟩

set_option maxRecDepth 100000 in
/-- Witness of C6 at the three sample scripts; the borrower program of the
`LoanCollateral` script is the body of `PriceChanger`. -/
theorem epilogue_shape_mismatch_witness :
    (ParsePayToPriceChanger sampleCallOptionScript).fails ∧
    (ParsePayToPriceChanger sampleLoanCollateralScript).fails ∧
    (ParsePayToCallOption samplePriceChangerScript).fails ∧
    (ParsePayToLoanCollateral samplePriceChangerScript).fails :=
  ⟨epilogue_shape_mismatch.1 7 ⟨0, 0, 0, 0⟩ [0xaa, 0xbb] [0xcc] 300 sampleCallOptionScript
      (by rfl),
    epilogue_shape_mismatch.2.1 ⟨0, 0, 0, 1⟩ (2 ^ 64 - 1) (-2) [0xaa] PriceChangerBodyBytes
      sampleLoanCollateralScript (by rfl),
    epilogue_shape_mismatch.2.2 (2 ^ 63) ⟨1, 0, 0, 0⟩ [0xcc, 0xdd] [] samplePriceChangerScript
      (by rfl)⟩

/-! ## Corrupted argument positions and instruction counts -/

/-- The argument loop stops with `too few arguments` at the first instruction
that is not a pushdata, when its index is below the number of arguments. -/
theorem argLoop_index_not_pushdata (n : Nat) (L : List Instruction) (i : Nat)
    (x : Instruction) (result : List Bytes) (k : List Instruction → List Bytes → Outcome)
    (hi : i < n) (hx : L[i]? = some x) (hnp : x.IsPushdata = false)
    (hpre : ∀ y ∈ L.take i, y.IsPushdata = true) :
    argLoop n L result k = .ret none (some (.fmt "too few arguments")) := by
  obtain ⟨hlt, hget⟩ := List.getElem?_eq_some.mp hx
  have hL : L = L.take i ++ x :: L.drop (i + 1) := by
    rw [← hget, ← List.drop_eq_getElem_cons hlt, List.take_append_drop]
  have hlen : (L.take i).length < n := by
    rw [List.length_take]; omega
  rw [hL]
  exact argLoop_not_pushdata n _ x _ result k hpre hnp hlen

/-- C7. Argument-position corruption: for each template with `n` arguments (5,
5, 4) and every instruction list `L`, if `L[i]` is not a pushdata for some
`i < n` while every instruction before it is, the decoder returns nil and exactly
the error `too few arguments`; if `L` has fewer than `n` instructions and all
are pushdata, it returns nil and exactly `program too short`. -/
theorem argument_corruption (L : List Instruction) :
    (∀ (i : Nat) (x : Instruction), i < 5 → L[i]? = some x → x.IsPushdata = false →
      (∀ y ∈ L.take i, y.IsPushdata = true) →
      ParsePayToCallOptionInsts L = .ret none (some (.fmt "too few arguments")) ∧
      ParsePayToLoanCollateralInsts L = .ret none (some (.fmt "too few arguments"))) ∧
    (∀ (i : Nat) (x : Instruction), i < 4 → L[i]? = some x → x.IsPushdata = false →
      (∀ y ∈ L.take i, y.IsPushdata = true) →
      ParsePayToPriceChangerInsts L = .ret none (some (.fmt "too few arguments"))) ∧
    (L.length < 5 → (∀ y ∈ L, y.IsPushdata = true) →
      ParsePayToCallOptionInsts L = .ret none (some (.fmt "program too short")) ∧
      ParsePayToLoanCollateralInsts L = .ret none (some (.fmt "program too short"))) ∧
    (L.length < 4 → (∀ y ∈ L, y.IsPushdata = true) →
      ParsePayToPriceChangerInsts L = .ret none (some (.fmt "program too short"))) := by
  refine ⟨?_, ?_, ?_, ?_⟩
  · intro i x hi hx hnp hpre
    exact ⟨argLoop_index_not_pushdata 5 L i x [] _ hi hx hnp hpre,
      argLoop_index_not_pushdata 5 L i x [] _ hi hx hnp hpre⟩
  · intro i x hi hx hnp hpre
    exact argLoop_index_not_pushdata 4 L i x [] _ hi hx hnp hpre
  · intro hlen hall
    exact ⟨argLoop_short 5 L [] _ hall hlen, argLoop_short 5 L [] _ hall hlen⟩
  · intro hlen hall
    exact argLoop_short 4 L [] _ hall hlen

/-- Witness of C7: the sample instruction lists with `DEPTH` in the place of
argument 2, and cut to their first three instructions. -/
theorem argument_corruption_witness :
    (ParsePayToCallOptionInsts (sampleCallOptionInsts.set 2 ⟨OP_DEPTH, []⟩) =
        .ret none (some (.fmt "too few arguments")) ∧
      ParsePayToLoanCollateralInsts (sampleCallOptionInsts.set 2 ⟨OP_DEPTH, []⟩) =
        .ret none (some (.fmt "too few arguments"))) ∧
    ParsePayToPriceChangerInsts (samplePriceChangerInsts.set 2 ⟨OP_DEPTH, []⟩) =
      .ret none (some (.fmt "too few arguments")) ∧
    (ParsePayToCallOptionInsts (sampleCallOptionInsts.take 3) =
        .ret none (some (.fmt "program too short")) ∧
      ParsePayToLoanCollateralInsts (sampleCallOptionInsts.take 3) =
        .ret none (some (.fmt "program too short"))) ∧
    ParsePayToPriceChangerInsts (samplePriceChangerInsts.take 3) =
      .ret none (some (.fmt "program too short")) :=
  ⟨(argument_corruption (sampleCallOptionInsts.set 2 ⟨OP_DEPTH, []⟩)).1 2 ⟨OP_DEPTH, []⟩
      (by decide) (by rfl) (by rfl) (by decide),
    (argument_corruption (samplePriceChangerInsts.set 2 ⟨OP_DEPTH, []⟩)).2.1 2 ⟨OP_DEPTH, []⟩
      (by decide) (by rfl) (by rfl) (by decide),
    (argument_corruption (sampleCallOptionInsts.take 3)).2.2.1 (by decide) (by decide),
    (argument_corruption (samplePriceChangerInsts.take 3)).2.2.2 (by decide) (by decide)⟩

/-- After `n` leading pushdata instructions, a count of remaining instructions
other than 4 makes a decoder of a template that is not quorum-flagged return
`program too short`. -/
theorem decodeNonQuorum_count (body : Bytes) (mismatch : Error) (L : List Instruction)
    (hargs : ∀ x ∈ L.take 5, x.IsPushdata = true) (hlen : (L.drop 5).length ≠ 4) :
    decodeNonQuorum body mismatch L = .ret none (some (.fmt "program too short")) := by
  by_cases h5 : L.length < 5
  · have hall : ∀ x ∈ L, x.IsPushdata = true := by
      rw [List.take_of_length_le (by omega)] at hargs
      exact hargs
    exact argLoop_short 5 L [] _ hall h5
  · obtain ⟨pre, hpre⟩ : ∃ pre, pre = L.take 5 := ⟨_, rfl⟩
    obtain ⟨rest, hrest⟩ : ∃ rest, rest = L.drop 5 := ⟨_, rfl⟩
    have hL : L = pre ++ rest := by rw [hpre, hrest, List.take_append_drop]
    have hpl : pre.length = 5 := by rw [hpre, List.length_take]; omega
    rw [← hpre] at hargs
    rw [← hrest] at hlen
    rw [hL, decodeNonQuorum, argLoop_pushdata 5 _ _ _ _ hargs hpl]
    simp [epilogueNonQuorum, hlen]

/-- After `n` leading pushdata instructions and a pushdata of the body, a count
of remaining instructions other than 4 makes the decoder of a quorum-flagged
template return `program too short`. -/
theorem decodeQuorum_count (body : Bytes) (mismatch : Error) (L : List Instruction)
    (hargs : ∀ x ∈ L.take 4, x.IsPushdata = true)
    (hb : L[4]?.map (fun x => x.IsPushdata) = some true)
    (hbd : L[4]?.map (fun x => x.Data) = some body) (hlen : (L.drop 5).length ≠ 4) :
    decodeQuorum body mismatch L = .ret none (some (.fmt "program too short")) := by
  cases h4 : L[4]? with
  | none => simp [h4] at hb
  | some b =>
    simp only [h4, Option.map_some', Option.some.injEq] at hb hbd
    obtain ⟨hlt, hget⟩ := List.getElem?_eq_some.mp h4
    obtain ⟨pre, hpre⟩ : ∃ pre, pre = L.take 4 := ⟨_, rfl⟩
    obtain ⟨rest, hrest⟩ : ∃ rest, rest = L.drop 5 := ⟨_, rfl⟩
    have hL : L = pre ++ b :: rest := by
      rw [hpre, hrest, ← hget, ← List.drop_eq_getElem_cons hlt, List.take_append_drop]
    have hpl : pre.length = 4 := by rw [hpre, List.length_take]; omega
    rw [← hpre] at hargs
    rw [← hrest] at hlen
    rw [hL, decodeQuorum, argLoop_pushdata 4 _ _ _ _ hargs hpl]
    simp [epilogueQuorum, index, hb, hbd, hlen]

/-- C8. Instruction-count mismatch: for each template, if the leading
`argCount` instructions are all pushdata (and, for `PriceChanger`, the next
instruction is a pushdata of the body bytes) and the number of instructions
that remain is not 4, fewer or more, the decoder returns nil and exactly the
error `program too short`, whatever the remaining instructions are. -/
theorem instruction_count_mismatch (L : List Instruction) :
    ((∀ x ∈ L.take 5, x.IsPushdata = true) → (L.drop 5).length ≠ 4 →
      ParsePayToCallOptionInsts L = .ret none (some (.fmt "program too short")) ∧
      ParsePayToLoanCollateralInsts L = .ret none (some (.fmt "program too short"))) ∧
    ((∀ x ∈ L.take 4, x.IsPushdata = true) →
      L[4]?.map (fun x => x.IsPushdata) = some true →
      L[4]?.map (fun x => x.Data) = some PriceChangerBodyBytes →
      (L.drop 5).length ≠ 4 →
      ParsePayToPriceChangerInsts L = .ret none (some (.fmt "program too short"))) :=
  ⟨fun hargs hlen => ⟨decodeNonQuorum_count _ _ L hargs hlen,
      decodeNonQuorum_count _ _ L hargs hlen⟩,
    fun hargs hb hbd hlen => decodeQuorum_count _ _ L hargs hb hbd hlen⟩

/-- Witness of C8: the sample instruction lists with one instruction more at
the end (5 remain), and without their last instruction (3 remain). -/
theorem instruction_count_mismatch_witness :
    (ParsePayToCallOptionInsts (sampleCallOptionInsts ++ [⟨OP_0, []⟩]) =
        .ret none (some (.fmt "program too short")) ∧
      ParsePayToLoanCollateralInsts (sampleCallOptionInsts ++ [⟨OP_0, []⟩]) =
        .ret none (some (.fmt "program too short"))) ∧
    ParsePayToPriceChangerInsts (samplePriceChangerInsts ++ [⟨OP_0, []⟩]) =
      .ret none (some (.fmt "program too short")) ∧
    (ParsePayToCallOptionInsts (sampleCallOptionInsts.take 8) =
        .ret none (some (.fmt "program too short")) ∧
      ParsePayToLoanCollateralInsts (sampleCallOptionInsts.take 8) =
        .ret none (some (.fmt "program too short"))) ∧
    ParsePayToPriceChangerInsts (samplePriceChangerInsts.take 8) =
      .ret none (some (.fmt "program too short")) :=
  ⟨(instruction_count_mismatch (sampleCallOptionInsts ++ [⟨OP_0, []⟩])).1
      (by decide) (by decide),
    (instruction_count_mismatch (samplePriceChangerInsts ++ [⟨OP_0, []⟩])).2
      (by decide) (by rfl) (by rfl) (by decide),
    (instruction_count_mismatch (sampleCallOptionInsts.take 8)).1 (by decide) (by decide),
    (instruction_count_mismatch (samplePriceChangerInsts.take 8)).2
      (by decide) (by rfl) (by rfl) (by decide)⟩

/-! ## Truncation -/

/-- A decoder that accepts only lists of 9 instructions fails on every script of
9 encoded instructions cut short. -/
theorem truncated_fails (decode : List Instruction → Outcome)
    (hsf : ∀ L, (decode L).succeeds ∨ (decode L).fails)
    (hlen : ∀ L, (decode L).succeeds → L.length = 9)
    (script : Bytes) (insts : List Instruction) (henc : EncodesAll script insts)
    (h9 : insts.length = 9) (k : Nat) (hk : k < script.length) :
    (match ParseProgram (script.take k) with
      | .error err => Outcome.ret none (some (.vm err))
      | .ok insts => decode insts).fails := by
  rcases ParseProgram_truncated script insts henc k hk with ⟨e, he⟩ | ⟨m, hm, hp⟩
  · rw [he]
    exact Outcome.fails_ret _
  · rw [hp]
    refine Outcome.fails_of_not_succeeds _ (hsf _) ?_
    intro hs
    have := hlen _ hs
    rw [List.length_take] at this
    omega

theorem scriptInsts_length_nonQuorum (body : Bytes) (a0 a1 a2 a3 a4 : ContractArg) :
    (scriptInsts body false [a0, a1, a2, a3, a4]).length = 9 := by
  simp [scriptInsts, epilogueInsts]

theorem scriptInsts_length_quorum (body : Bytes) (a0 a1 a2 a3 : ContractArg) :
    (scriptInsts body true [a0, a1, a2, a3]).length = 9 := by
  simp [scriptInsts, epilogueInsts]

/-- C9. Truncation safety: for each template, every argument tuple for which
`PayToX` succeeds and every `k` smaller than the length of the script (so also
every offset before the epilogue), `ParsePayToX` of the first `k` bytes of the
script returns an error and a nil result. -/
theorem truncation_safety :
    (∀ (strikePrice : Nat) (strikeCurrency : AssetID) (seller buyerKey : Bytes)
        (blockHeight : Int) (script : Bytes) (k : Nat),
      PayToCallOption strikePrice strikeCurrency seller buyerKey blockHeight = .ok script →
      k < script.length → (ParsePayToCallOption (script.take k)).fails) ∧
    (∀ (assetLoaned : AssetID) (amountLoaned : Nat) (blockHeight : Int)
        (lender borrower : Bytes) (script : Bytes) (k : Nat),
      PayToLoanCollateral assetLoaned amountLoaned blockHeight lender borrower = .ok script →
      k < script.length → (ParsePayToLoanCollateral (script.take k)).fails) ∧
    (∀ (askAmount : Nat) (askAsset : AssetID) (sellerKey sellerProg : Bytes) (script : Bytes)
        (k : Nat),
      PayToPriceChanger askAmount askAsset sellerKey sellerProg = .ok script →
      k < script.length → (ParsePayToPriceChanger (script.take k)).fails) := by
  refine ⟨?_, ?_, ?_⟩
  · intro strikePrice strikeCurrency seller buyerKey blockHeight script k h hk
    exact truncated_fails _ (decodeNonQuorum_succeeds_or_fails _ _)
      (fun L hs => (shape_of_decodeNonQuorum _ _ L hs).1) script _
      (encodesAll_Instantiate _ _ _ _ script h) (scriptInsts_length_nonQuorum _ _ _ _ _ _) k hk
  · intro assetLoaned amountLoaned blockHeight lender borrower script k h hk
    exact truncated_fails _ (decodeNonQuorum_succeeds_or_fails _ _)
      (fun L hs => (shape_of_decodeNonQuorum _ _ L hs).1) script _
      (encodesAll_Instantiate _ _ _ _ script h) (scriptInsts_length_nonQuorum _ _ _ _ _ _) k hk
  · intro askAmount askAsset sellerKey sellerProg script k h hk
    exact truncated_fails _ (decodeQuorum_succeeds_or_fails _ _)
      (fun L hs => (shape_of_decodeQuorum _ _ L hs).1) script _
      (encodesAll_Instantiate _ _ _ _ script h) (scriptInsts_length_quorum _ _ _ _ _) k hk

set_option maxRecDepth 100000 in
/-- Witness of C9: the sample scripts cut inside an argument (offset 10), and
cut right before their last byte. -/
theorem truncation_safety_witness :
    (ParsePayToCallOption (sampleCallOptionScript.take 10)).fails ∧
    (ParsePayToLoanCollateral (sampleLoanCollateralScript.take 10)).fails ∧
    (ParsePayToPriceChanger (samplePriceChangerScript.take 10)).fails ∧
    (ParsePayToCallOption (sampleCallOptionScript.take 89)).fails :=
  ⟨truncation_safety.1 7 ⟨0, 0, 0, 0⟩ [0xaa, 0xbb] [0xcc] 300 sampleCallOptionScript 10
      (by rfl) (by decide),
    truncation_safety.2.1 ⟨0, 0, 0, 1⟩ (2 ^ 64 - 1) (-2) [0xaa] PriceChangerBodyBytes
      sampleLoanCollateralScript 10 (by rfl) (by decide),
    truncation_safety.2.2 (2 ^ 63) ⟨1, 0, 0, 0⟩ [0xcc, 0xdd] [] samplePriceChangerScript 10
      (by rfl) (by decide),
    truncation_safety.1 7 ⟨0, 0, 0, 0⟩ [0xaa, 0xbb] [0xcc] 300 sampleCallOptionScript 89
      (by rfl) (by decide)⟩

/-! ## The zero marker -/

/-- The decoder at the marker: the error `wrong program format` for a value
other than 0, the check of the last opcode for 0. -/
theorem decodeNonQuorum_marker (body : Bytes) (mismatch : Error) (L : List Instruction)
    (v : Int) (h : nonQuorumMarker body L v) :
    decodeNonQuorum body mismatch L =
      if v ≠ 0 then .ret none (some (.fmt "wrong program format"))
      else if L[8]?.map (fun x => x.Op) ≠ some OP_CHECKPREDICATE then
        .ret none (some (.fmt "wrong program format"))
      else .ret (some ((L.take 5).map fun x => x.Data)) none := by
  obtain ⟨hlen, hargs, h5, h6, h6d, h7, h7v⟩ := h
  obtain ⟨a0, a1, a2, a3, a4, a5, a6, a7, a8, rfl⟩ := length_nine L hlen
  simp at hargs h5 h6 h6d h7 h7v
  have hpre : ∀ x ∈ [a0, a1, a2, a3, a4], x.IsPushdata = true := by simpa using hargs
  have hL : [a0, a1, a2, a3, a4, a5, a6, a7, a8] = [a0, a1, a2, a3, a4] ++ [a5, a6, a7, a8] :=
    rfl
  rw [hL, decodeNonQuorum, argLoop_pushdata 5 _ _ _ _ hpre rfl]
  cases hv : AsInt64 a7.Data with
  | error e => simp [hv, Except.toOption] at h7v
  | ok w =>
    simp [hv, Except.toOption] at h7v
    subst h7v
    simp [epilogueNonQuorum, index, h5, h6, h6d, h7, hv]

/-- The quorum decoder at the marker: the error `wrong program format` for a
value other than 0, the check of the last opcode for 0. -/
theorem decodeQuorum_marker (body : Bytes) (mismatch : Error) (L : List Instruction)
    (v : Int) (h : quorumMarker body L v) :
    decodeQuorum body mismatch L =
      if v ≠ 0 then .ret none (some (.fmt "wrong program format"))
      else if L[8]?.map (fun x => x.Op) ≠ some OP_CHECKPREDICATE then
        .ret none (some (.fmt "wrong program format"))
      else .ret (some ((L.take 4).map fun x => x.Data)) none := by
  obtain ⟨hlen, hargs, h4, h4d, h5, h6, h7, h7v⟩ := h
  obtain ⟨a0, a1, a2, a3, a4, a5, a6, a7, a8, rfl⟩ := length_nine L hlen
  simp at hargs h4 h4d h5 h6 h7 h7v
  have hpre : ∀ x ∈ [a0, a1, a2, a3], x.IsPushdata = true := by simpa using hargs
  have hL : [a0, a1, a2, a3, a4, a5, a6, a7, a8] = [a0, a1, a2, a3] ++ [a4, a5, a6, a7, a8] :=
    rfl
  rw [hL, decodeQuorum, argLoop_pushdata 4 _ _ _ _ hpre rfl]
  cases hv : AsInt64 a7.Data with
  | error e => simp [hv, Except.toOption] at h7v
  | ok w =>
    simp [hv, Except.toOption] at h7v
    subst h7v
    simp [epilogueQuorum, index, h4, h4d, h5, h6, h7, hv]

/-- C10. Zero marker: for each template, when every earlier check passes and the
payload of the marker pushdata decodes as the integer `v`, the decoder returns
nil and exactly the error `wrong program format` for every `v` other than 0, and
goes on to the check of the last opcode only for `v = 0`; so it returns no error
only if `v = 0`. -/
theorem zero_marker (L : List Instruction) (v : Int) :
    (nonQuorumMarker CallOptionBodyBytes L v →
      (v ≠ 0 → ParsePayToCallOptionInsts L = .ret none (some (.fmt "wrong program format"))) ∧
      (v = 0 → ParsePayToCallOptionInsts L =
        if L[8]?.map (fun x => x.Op) ≠ some OP_CHECKPREDICATE then
          .ret none (some (.fmt "wrong program format"))
        else .ret (some ((L.take 5).map fun x => x.Data)) none) ∧
      ((ParsePayToCallOptionInsts L).succeeds → v = 0)) ∧
    (nonQuorumMarker LoanCollateralBodyBytes L v →
      (v ≠ 0 →
        ParsePayToLoanCollateralInsts L = .ret none (some (.fmt "wrong program format"))) ∧
      (v = 0 → ParsePayToLoanCollateralInsts L =
        if L[8]?.map (fun x => x.Op) ≠ some OP_CHECKPREDICATE then
          .ret none (some (.fmt "wrong program format"))
        else .ret (some ((L.take 5).map fun x => x.Data)) none) ∧
      ((ParsePayToLoanCollateralInsts L).succeeds → v = 0)) ∧
    (quorumMarker PriceChangerBodyBytes L v →
      (v ≠ 0 →
        ParsePayToPriceChangerInsts L = .ret none (some (.fmt "wrong program format"))) ∧
      (v = 0 → ParsePayToPriceChangerInsts L =
        if L[8]?.map (fun x => x.Op) ≠ some OP_CHECKPREDICATE then
          .ret none (some (.fmt "wrong program format"))
        else .ret (some ((L.take 4).map fun x => x.Data)) none) ∧
      ((ParsePayToPriceChangerInsts L).succeeds → v = 0)) := by
  refine ⟨fun h => ?_, fun h => ?_, fun h => ?_⟩
  · have e := decodeNonQuorum_marker _ (.fmt "body bytes do not match CallOption") L v h
    rw [← ParsePayToCallOptionInsts_eq] at e
    refine ⟨fun hv => by rw [e, if_pos hv], fun hv => by rw [e, if_neg (not_not.mpr hv)], ?_⟩
    rintro ⟨r, hr⟩
    by_contra hv
    rw [e, if_pos hv] at hr
    simp at hr
  · have e := decodeNonQuorum_marker _ (.fmt "body bytes do not match LoanCollateral") L v h
    rw [← ParsePayToLoanCollateralInsts_eq] at e
    refine ⟨fun hv => by rw [e, if_pos hv], fun hv => by rw [e, if_neg (not_not.mpr hv)], ?_⟩
    rintro ⟨r, hr⟩
    by_contra hv
    rw [e, if_pos hv] at hr
    simp at hr
  · have e := decodeQuorum_marker _ (.fmt "body bytes do not match PriceChanger") L v h
    rw [← ParsePayToPriceChangerInsts_eq] at e
    refine ⟨fun hv => by rw [e, if_pos hv], fun hv => by rw [e, if_neg (not_not.mpr hv)], ?_⟩
    rintro ⟨r, hr⟩
    by_contra hv
    rw [e, if_pos hv] at hr
    simp at hr

/-- Witness of C10: the sample instruction lists with the marker replaced by a
push of the number 1 (opcode `1`), by a push of -1 (eight bytes `ff`), and by a
push of the one-byte payload `00`, which decodes as 0. -/
theorem zero_marker_witness :
    ParsePayToCallOptionInsts (sampleCallOptionInsts.set 7 ⟨OP_1, [1]⟩) =
      .ret none (some (.fmt "wrong program format")) ∧
    ParsePayToLoanCollateralInsts (sampleLoanCollateralInsts.set 7
        ⟨0x08, [0xff, 0xff, 0xff, 0xff, 0xff, 0xff, 0xff, 0xff]⟩) =
      .ret none (some (.fmt "wrong program format")) ∧
    ParsePayToPriceChangerInsts (samplePriceChangerInsts.set 7 ⟨OP_1, [1]⟩) =
      .ret none (some (.fmt "wrong program format")) ∧
    ParsePayToPriceChangerInsts (samplePriceChangerInsts.set 7 ⟨OP_DATA_1, [0]⟩) =
      .ret (some (((samplePriceChangerInsts.set 7 ⟨OP_DATA_1, [0]⟩).take 4).map
        fun x => x.Data)) none :=
  ⟨((zero_marker (sampleCallOptionInsts.set 7 ⟨OP_1, [1]⟩) 1).1 (by decide)).1 (by decide),
    ((zero_marker (sampleLoanCollateralInsts.set 7
        ⟨0x08, [0xff, 0xff, 0xff, 0xff, 0xff, 0xff, 0xff, 0xff]⟩) (-1)).2.1
      (by decide)).1 (by decide),
    ((zero_marker (samplePriceChangerInsts.set 7 ⟨OP_1, [1]⟩) 1).2.2 (by decide)).1
      (by decide),
    ((zero_marker (samplePriceChangerInsts.set 7 ⟨OP_DATA_1, [0]⟩) 0).2.2 (by decide)).2.1
      rfl⟩

/-! ## No partial acceptance and crash freedom -/

/-- After the disassembler, a decoder that returns all or nothing on every
instruction list returns all or nothing on every program. -/
theorem parse_allOrNothing (decode : List Instruction → Outcome) (n : Nat) (prog : Bytes)
    (h : ∀ L, (decode L).allOrNothing n) :
    (match ParseProgram prog with
      | .error err => Outcome.ret none (some (.vm err))
      | .ok insts => decode insts).allOrNothing n := by
  cases hp : ParseProgram prog with
  | error e => exact Or.inr ⟨_, rfl⟩
  | ok L => exact h L

theorem decodeNonQuorum_allOrNothing (body : Bytes) (mismatch : Error) (L : List Instruction) :
    (decodeNonQuorum body mismatch L).allOrNothing 5 := by
  rcases decodeNonQuorum_succeeds_or_fails body mismatch L with hs | hf
  · have hshape := shape_of_decodeNonQuorum body mismatch L hs
    refine Or.inl ⟨_, decodeNonQuorum_of_shape body mismatch L hshape, ?_⟩
    rw [List.length_map, List.length_take, hshape.1]
    rfl
  · exact Or.inr hf

theorem decodeQuorum_allOrNothing (body : Bytes) (mismatch : Error) (L : List Instruction) :
    (decodeQuorum body mismatch L).allOrNothing 4 := by
  rcases decodeQuorum_succeeds_or_fails body mismatch L with hs | hf
  · have hshape := shape_of_decodeQuorum body mismatch L hs
    refine Or.inl ⟨_, decodeQuorum_of_shape body mismatch L hshape, ?_⟩
    rw [List.length_map, List.length_take, hshape.1]
    rfl
  · exact Or.inr hf

/-- C11. No partial acceptance: for each template and every program,
`ParsePayToX` returns either a list of exactly `argCount` byte strings (5, 5, 4)
and no error, or nil and an error; so on every failure path, a disassembly error
and an integer-decode error included, the arguments collected so far are not
returned. Stated on every program and on every instruction list. -/
theorem no_partial_acceptance (prog : Bytes) (L : List Instruction) :
    (ParsePayToCallOption prog).allOrNothing 5 ∧
    (ParsePayToLoanCollateral prog).allOrNothing 5 ∧
    (ParsePayToPriceChanger prog).allOrNothing 4 ∧
    (ParsePayToCallOptionInsts L).allOrNothing 5 ∧
    (ParsePayToLoanCollateralInsts L).allOrNothing 5 ∧
    (ParsePayToPriceChangerInsts L).allOrNothing 4 :=
  ⟨parse_allOrNothing _ 5 prog (decodeNonQuorum_allOrNothing _ _),
    parse_allOrNothing _ 5 prog (decodeNonQuorum_allOrNothing _ _),
    parse_allOrNothing _ 4 prog (decodeQuorum_allOrNothing _ _),
    decodeNonQuorum_allOrNothing _ _ L, decodeNonQuorum_allOrNothing _ _ L,
    decodeQuorum_allOrNothing _ _ L⟩

theorem Outcome.allOrNothing_ne_panic (o : Outcome) (n : Nat) (h : o.allOrNothing n) :
    o ≠ .panic := by
  rcases h with ⟨r, hr, _⟩ | ⟨e, he⟩
  · rw [hr]; simp
  · rw [he]; simp

/-- C15. Crash freedom: on every instruction list of any length and content,
the empty list included, and on every program, each of the three decoders
returns a result or an error, and never stops with an index out of range: the
out-of-range branch of `index` is not reached. -/
theorem crash_freedom (prog : Bytes) (L : List Instruction) :
    (((ParsePayToCallOptionInsts L).succeeds ∨ (ParsePayToCallOptionInsts L).fails) ∧
      ParsePayToCallOptionInsts L ≠ .panic) ∧
    (((ParsePayToLoanCollateralInsts L).succeeds ∨ (ParsePayToLoanCollateralInsts L).fails) ∧
      ParsePayToLoanCollateralInsts L ≠ .panic) ∧
    (((ParsePayToPriceChangerInsts L).succeeds ∨ (ParsePayToPriceChangerInsts L).fails) ∧
      ParsePayToPriceChangerInsts L ≠ .panic) ∧
    ParsePayToCallOption prog ≠ .panic ∧
    ParsePayToLoanCollateral prog ≠ .panic ∧
    ParsePayToPriceChanger prog ≠ .panic :=
  ⟨⟨decodeNonQuorum_succeeds_or_fails _ _ L,
      Outcome.allOrNothing_ne_panic _ 5 (decodeNonQuorum_allOrNothing _ _ L)⟩,
    ⟨decodeNonQuorum_succeeds_or_fails _ _ L,
      Outcome.allOrNothing_ne_panic _ 5 (decodeNonQuorum_allOrNothing _ _ L)⟩,
    ⟨decodeQuorum_succeeds_or_fails _ _ L,
      Outcome.allOrNothing_ne_panic _ 4 (decodeQuorum_allOrNothing _ _ L)⟩,
    Outcome.allOrNothing_ne_panic _ 5
      (parse_allOrNothing _ 5 prog (decodeNonQuorum_allOrNothing _ _)),
    Outcome.allOrNothing_ne_panic _ 5
      (parse_allOrNothing _ 5 prog (decodeNonQuorum_allOrNothing _ _)),
    Outcome.allOrNothing_ne_panic _ 4
      (parse_allOrNothing _ 4 prog (decodeQuorum_allOrNothing _ _))⟩

/-! ## Argument count and argument tags -/

/-- C12. Argument-count invariant: for each template the number of contract
arguments handed to the script compiler equals the length of the declared
parameter list (5, 5, 4) and the number of rounds of the argument loop of the
decoder: after that many leading pushdata instructions the decoder checks the
epilogue on the instructions that remain, with their payloads collected in
order. The i-th argument is integer-tagged exactly when the i-th parameter is of
type Amount or Integer and byte-string-tagged exactly when it is of type Asset,
Program or PublicKey. -/
theorem argument_count_invariant :
    (∀ (strikePrice : Nat) (strikeCurrency : AssetID) (seller buyerKey : Bytes)
        (blockHeight : Int),
      (CallOptionArgs strikePrice strikeCurrency seller buyerKey blockHeight).length =
        CallOptionParams.length ∧
      tagsMatch CallOptionParams
        (CallOptionArgs strikePrice strikeCurrency seller buyerKey blockHeight) = true) ∧
    (∀ (assetLoaned : AssetID) (amountLoaned : Nat) (blockHeight : Int)
        (lender borrower : Bytes),
      (LoanCollateralArgs assetLoaned amountLoaned blockHeight lender borrower).length =
        LoanCollateralParams.length ∧
      tagsMatch LoanCollateralParams
        (LoanCollateralArgs assetLoaned amountLoaned blockHeight lender borrower) = true) ∧
    (∀ (askAmount : Nat) (askAsset : AssetID) (sellerKey sellerProg : Bytes),
      (PriceChangerArgs askAmount askAsset sellerKey sellerProg).length =
        PriceChangerParams.length ∧
      tagsMatch PriceChangerParams
        (PriceChangerArgs askAmount askAsset sellerKey sellerProg) = true) ∧
    CallOptionParams.length = 5 ∧ LoanCollateralParams.length = 5 ∧
    PriceChangerParams.length = 4 ∧
    (∀ pre rest : List Instruction, pre.length = CallOptionParams.length →
      (∀ x ∈ pre, x.IsPushdata = true) →
      ParsePayToCallOptionInsts (pre ++ rest) =
        epilogueNonQuorum CallOptionBodyBytes (.fmt "body bytes do not match CallOption") rest
          (pre.map fun x => x.Data)) ∧
    (∀ pre rest : List Instruction, pre.length = LoanCollateralParams.length →
      (∀ x ∈ pre, x.IsPushdata = true) →
      ParsePayToLoanCollateralInsts (pre ++ rest) =
        epilogueNonQuorum LoanCollateralBodyBytes
          (.fmt "body bytes do not match LoanCollateral") rest (pre.map fun x => x.Data)) ∧
    (∀ pre rest : List Instruction, pre.length = PriceChangerParams.length →
      (∀ x ∈ pre, x.IsPushdata = true) →
      ParsePayToPriceChangerInsts (pre ++ rest) =
        epilogueQuorum PriceChangerBodyBytes (.fmt "body bytes do not match PriceChanger") rest
          (pre.map fun x => x.Data)) := by
  refine ⟨fun _ _ _ _ _ => ⟨rfl, rfl⟩, fun _ _ _ _ _ => ⟨rfl, rfl⟩, fun _ _ _ _ => ⟨rfl, rfl⟩,
    rfl, rfl, rfl, ?_, ?_, ?_⟩
  · intro pre rest hlen hpre
    have := argLoop_pushdata 5 pre rest []
      (epilogueNonQuorum CallOptionBodyBytes (.fmt "body bytes do not match CallOption")) hpre hlen
    simpa using this
  · intro pre rest hlen hpre
    have := argLoop_pushdata 5 pre rest []
      (epilogueNonQuorum LoanCollateralBodyBytes (.fmt "body bytes do not match LoanCollateral"))
      hpre hlen
    simpa using this
  · intro pre rest hlen hpre
    have := argLoop_pushdata 4 pre rest []
      (epilogueQuorum PriceChangerBodyBytes (.fmt "body bytes do not match PriceChanger"))
      hpre hlen
    simpa using this

/-- Witness of C12: the first five instructions of the `CallOption` sample and
the first four of the `PriceChanger` sample are consumed by the argument loops,
and the epilogue check runs on the four, respectively five, that remain. -/
theorem argument_count_invariant_witness :
    ParsePayToCallOptionInsts (sampleCallOptionInsts.take 5 ++ sampleCallOptionInsts.drop 5) =
      epilogueNonQuorum CallOptionBodyBytes (.fmt "body bytes do not match CallOption")
        (sampleCallOptionInsts.drop 5) ((sampleCallOptionInsts.take 5).map fun x => x.Data) ∧
    ParsePayToPriceChangerInsts
        (samplePriceChangerInsts.take 4 ++ samplePriceChangerInsts.drop 4) =
      epilogueQuorum PriceChangerBodyBytes (.fmt "body bytes do not match PriceChanger")
        (samplePriceChangerInsts.drop 4) ((samplePriceChangerInsts.take 4).map fun x => x.Data) :=
  ⟨argument_count_invariant.2.2.2.2.2.2.1 (sampleCallOptionInsts.take 5)
      (sampleCallOptionInsts.drop 5) (by decide) (by decide),
    argument_count_invariant.2.2.2.2.2.2.2.2 (samplePriceChangerInsts.take 4)
      (samplePriceChangerInsts.drop 4) (by decide) (by decide)⟩

/-! ## Amount conversion -/

theorem int64_eq (a : Nat) (ha : a < 2 ^ 64) :
    int64 a = if a < 2 ^ 63 then (a : Int) else (a : Int) - 2 ^ 64 := by
  unfold int64
  rw [Nat.mod_eq_of_lt ha]

theorem uint64_int64 (a : Nat) (ha : a < 2 ^ 64) : uint64 (int64 a) = a := by
  rw [int64_eq a ha]
  unfold uint64
  split_ifs <;> omega

/-- C16. Amount conversion: for every unsigned 64-bit amount `a`, the integer
that `PayToCallOption` (strikePrice), `PayToLoanCollateral` (amountLoaned) and
`PayToPriceChanger` (askAmount) hand to the script compiler is `a` when
`a < 2^63` and `a - 2^64`, a negative number, when `a >= 2^63`; the conversion
is injective, and the signed value read modulo `2^64` is `a` again. -/
theorem amount_conversion (a : Nat) (ha : a < 2 ^ 64) (asset : AssetID) (p q : Bytes)
    (blockHeight : Int) :
    (CallOptionArgs a asset p q blockHeight)[0]? =
      some (.I (if a < 2 ^ 63 then (a : Int) else (a : Int) - 2 ^ 64)) ∧
    (LoanCollateralArgs asset a blockHeight p q)[1]? =
      some (.I (if a < 2 ^ 63 then (a : Int) else (a : Int) - 2 ^ 64)) ∧
    (PriceChangerArgs a asset p q)[0]? =
      some (.I (if a < 2 ^ 63 then (a : Int) else (a : Int) - 2 ^ 64)) ∧
    (2 ^ 63 ≤ a → int64 a < 0) ∧
    uint64 (int64 a) = a ∧
    ∀ b : Nat, b < 2 ^ 64 → int64 a = int64 b → a = b := by
  refine ⟨?_, ?_, ?_, ?_, uint64_int64 a ha, ?_⟩
  · simp [CallOptionArgs, int64_eq a ha]
  · simp [LoanCollateralArgs, int64_eq a ha]
  · simp [PriceChangerArgs, int64_eq a ha]
  · intro h
    rw [int64_eq a ha]
    split_ifs <;> omega
  · intro b hb h
    have h1 := uint64_int64 a ha
    rw [h, uint64_int64 b hb] at h1
    exact h1.symm

/-- Witness of C16 at the largest amount, `2^64 - 1`, handed over as -1. -/
theorem amount_conversion_witness :
    (CallOptionArgs (2 ^ 64 - 1) ⟨0, 0, 0, 0⟩ [] [] 0)[0]? = some (.I (-1)) ∧
    uint64 (int64 (2 ^ 64 - 1)) = 2 ^ 64 - 1 :=
  ⟨(amount_conversion (2 ^ 64 - 1) (by decide) ⟨0, 0, 0, 0⟩ [] [] 0).1,
    (amount_conversion (2 ^ 64 - 1) (by decide) ⟨0, 0, 0, 0⟩ [] [] 0).2.2.2.2.1⟩

/-! ## The marker that does not decode -/

/-- A decoder of a template that is not quorum-flagged passes the error of the
decode-as-integer helper on, whatever the last instruction is. -/
theorem decodeNonQuorum_marker_error (body : Bytes) (mismatch : Error) (L : List Instruction)
    (e : VMError) (c : Instruction) (h : nonQuorumMarkerError body L e) :
    decodeNonQuorum body mismatch L = .ret none (some (.vm e)) ∧
    decodeNonQuorum body mismatch (L.set 8 c) = .ret none (some (.vm e)) := by
  obtain ⟨hlen, hargs, h5, h6, h6d, h7, h7v⟩ := h
  obtain ⟨a0, a1, a2, a3, a4, a5, a6, a7, a8, rfl⟩ := length_nine L hlen
  simp at hargs h5 h6 h6d h7 h7v
  have hpre : ∀ x ∈ [a0, a1, a2, a3, a4], x.IsPushdata = true := by simpa using hargs
  have hL : ∀ z : Instruction,
      [a0, a1, a2, a3, a4, a5, a6, a7, z] = [a0, a1, a2, a3, a4] ++ [a5, a6, a7, z] :=
    fun _ => rfl
  have hset : [a0, a1, a2, a3, a4, a5, a6, a7, a8].set 8 c =
      [a0, a1, a2, a3, a4, a5, a6, a7, c] := rfl
  cases hv : AsInt64 a7.Data with
  | ok w => simp [asInt64Error, hv] at h7v
  | error w =>
    simp [asInt64Error, hv] at h7v
    subst h7v
    rw [hset, hL a8, hL c]
    unfold decodeNonQuorum
    rw [argLoop_pushdata 5 _ _ _ _ hpre rfl, argLoop_pushdata 5 _ _ _ _ hpre rfl]
    simp [epilogueNonQuorum, index, h5, h6, h6d, h7, hv]

/-- The decoder of a quorum-flagged template passes the error of the
decode-as-integer helper on, whatever the last instruction is. -/
theorem decodeQuorum_marker_error (body : Bytes) (mismatch : Error) (L : List Instruction)
    (e : VMError) (c : Instruction) (h : quorumMarkerError body L e) :
    decodeQuorum body mismatch L = .ret none (some (.vm e)) ∧
    decodeQuorum body mismatch (L.set 8 c) = .ret none (some (.vm e)) := by
  obtain ⟨hlen, hargs, h4, h4d, h5, h6, h7, h7v⟩ := h
  obtain ⟨a0, a1, a2, a3, a4, a5, a6, a7, a8, rfl⟩ := length_nine L hlen
  simp at hargs h4 h4d h5 h6 h7 h7v
  have hpre : ∀ x ∈ [a0, a1, a2, a3], x.IsPushdata = true := by simpa using hargs
  have hL : ∀ z : Instruction,
      [a0, a1, a2, a3, a4, a5, a6, a7, z] = [a0, a1, a2, a3] ++ [a4, a5, a6, a7, z] :=
    fun _ => rfl
  have hset : [a0, a1, a2, a3, a4, a5, a6, a7, a8].set 8 c =
      [a0, a1, a2, a3, a4, a5, a6, a7, c] := rfl
  cases hv : AsInt64 a7.Data with
  | ok w => simp [asInt64Error, hv] at h7v
  | error w =>
    simp [asInt64Error, hv] at h7v
    subst h7v
    rw [hset, hL a8, hL c]
    unfold decodeQuorum
    rw [argLoop_pushdata 4 _ _ _ _ hpre rfl, argLoop_pushdata 4 _ _ _ _ hpre rfl]
    simp [epilogueQuorum, index, h4, h4d, h5, h6, h7, hv]

/-- C17. Undecodable zero marker: for each template, when every earlier check
passes and the decode-as-integer helper returns an error on the payload of the
marker pushdata, the decoder returns nil together with that error unchanged,
which is none of the messages of the decoder, and it does so whatever stands at
the position of `CHECKPREDICATE`. A payload of more than 8 bytes is such a
payload. -/
theorem undecodable_marker (L : List Instruction) (e : VMError) (c : Instruction) :
    (nonQuorumMarkerError CallOptionBodyBytes L e →
      ParsePayToCallOptionInsts L = .ret none (some (.vm e)) ∧
      ParsePayToCallOptionInsts (L.set 8 c) = .ret none (some (.vm e))) ∧
    (nonQuorumMarkerError LoanCollateralBodyBytes L e →
      ParsePayToLoanCollateralInsts L = .ret none (some (.vm e)) ∧
      ParsePayToLoanCollateralInsts (L.set 8 c) = .ret none (some (.vm e))) ∧
    (quorumMarkerError PriceChangerBodyBytes L e →
      ParsePayToPriceChangerInsts L = .ret none (some (.vm e)) ∧
      ParsePayToPriceChangerInsts (L.set 8 c) = .ret none (some (.vm e))) ∧
    (∀ msg : String, Error.vm e ≠ Error.fmt msg) ∧
    (∀ b : Bytes, 8 < b.length → asInt64Error b = some .ErrBadValue) := by
  refine ⟨fun h => decodeNonQuorum_marker_error _ _ L e c h,
    fun h => decodeNonQuorum_marker_error _ _ L e c h,
    fun h => decodeQuorum_marker_error _ _ L e c h, fun msg h => Error.noConfusion h, ?_⟩
  intro b hb
  have h0 : b.length ≠ 0 := by omega
  simp [asInt64Error, AsInt64, h0, hb]

/-- Witness of C17: the sample instruction lists with a marker of 9 zero bytes;
the error is the one of the helper also with `DEPTH` in the last position. -/
theorem undecodable_marker_witness :
    (ParsePayToCallOptionInsts (sampleCallOptionInsts.set 7 ⟨0x09, List.replicate 9 0⟩) =
        .ret none (some (.vm .ErrBadValue)) ∧
      ParsePayToCallOptionInsts
          ((sampleCallOptionInsts.set 7 ⟨0x09, List.replicate 9 0⟩).set 8 ⟨OP_DEPTH, []⟩) =
        .ret none (some (.vm .ErrBadValue))) ∧
    (ParsePayToLoanCollateralInsts
          (sampleLoanCollateralInsts.set 7 ⟨0x09, List.replicate 9 0⟩) =
        .ret none (some (.vm .ErrBadValue)) ∧
      ParsePayToLoanCollateralInsts
          ((sampleLoanCollateralInsts.set 7 ⟨0x09, List.replicate 9 0⟩).set 8 ⟨OP_DEPTH, []⟩) =
        .ret none (some (.vm .ErrBadValue))) ∧
    (ParsePayToPriceChangerInsts (samplePriceChangerInsts.set 7 ⟨0x09, List.replicate 9 0⟩) =
        .ret none (some (.vm .ErrBadValue)) ∧
      ParsePayToPriceChangerInsts
          ((samplePriceChangerInsts.set 7 ⟨0x09, List.replicate 9 0⟩).set 8 ⟨OP_DEPTH, []⟩) =
        .ret none (some (.vm .ErrBadValue))) :=
  ⟨(undecodable_marker (sampleCallOptionInsts.set 7 ⟨0x09, List.replicate 9 0⟩) .ErrBadValue
      ⟨OP_DEPTH, []⟩).1 (by decide),
    (undecodable_marker (sampleLoanCollateralInsts.set 7 ⟨0x09, List.replicate 9 0⟩)
      .ErrBadValue ⟨OP_DEPTH, []⟩).2.1 (by decide),
    (undecodable_marker (samplePriceChangerInsts.set 7 ⟨0x09, List.replicate 9 0⟩)
      .ErrBadValue ⟨OP_DEPTH, []⟩).2.2.1 (by decide)⟩

/-! ## Epilogue opcode mismatch -/

theorem decodeNonQuorum_kind_mismatch (body : Bytes) (mismatch : Error) (L : List Instruction)
    (h : nonQuorumKindMismatch body L) :
    decodeNonQuorum body mismatch L = .ret none (some (.fmt "wrong program format")) := by
  obtain ⟨hlen, hargs, hcases⟩ := h
  rcases hcases with h5 | ⟨h5, h6⟩ | ⟨h5, h6, h6d, h7⟩ | ⟨hm, h8⟩
  · obtain ⟨a0, a1, a2, a3, a4, a5, a6, a7, a8, rfl⟩ := length_nine L hlen
    simp at hargs h5
    have hpre : ∀ x ∈ [a0, a1, a2, a3, a4], x.IsPushdata = true := by simpa using hargs
    have hL : [a0, a1, a2, a3, a4, a5, a6, a7, a8] =
        [a0, a1, a2, a3, a4] ++ [a5, a6, a7, a8] := rfl
    rw [hL, decodeNonQuorum, argLoop_pushdata 5 _ _ _ _ hpre rfl]
    simp [epilogueNonQuorum, index, h5]
  · obtain ⟨a0, a1, a2, a3, a4, a5, a6, a7, a8, rfl⟩ := length_nine L hlen
    simp at hargs h5 h6
    have hpre : ∀ x ∈ [a0, a1, a2, a3, a4], x.IsPushdata = true := by simpa using hargs
    have hL : [a0, a1, a2, a3, a4, a5, a6, a7, a8] =
        [a0, a1, a2, a3, a4] ++ [a5, a6, a7, a8] := rfl
    rw [hL, decodeNonQuorum, argLoop_pushdata 5 _ _ _ _ hpre rfl]
    simp [epilogueNonQuorum, index, h5, h6]
  · obtain ⟨a0, a1, a2, a3, a4, a5, a6, a7, a8, rfl⟩ := length_nine L hlen
    simp at hargs h5 h6 h6d h7
    have hpre : ∀ x ∈ [a0, a1, a2, a3, a4], x.IsPushdata = true := by simpa using hargs
    have hL : [a0, a1, a2, a3, a4, a5, a6, a7, a8] =
        [a0, a1, a2, a3, a4] ++ [a5, a6, a7, a8] := rfl
    rw [hL, decodeNonQuorum, argLoop_pushdata 5 _ _ _ _ hpre rfl]
    simp [epilogueNonQuorum, index, h5, h6, h6d, h7]
  · rw [decodeNonQuorum_marker body mismatch L 0 hm]
    simp [h8]

theorem decodeQuorum_kind_mismatch (body : Bytes) (mismatch : Error) (L : List Instruction)
    (h : quorumKindMismatch body L) :
    decodeQuorum body mismatch L = .ret none (some (.fmt "wrong program format")) := by
  obtain ⟨hlen, hargs, h4, h4d, hcases⟩ := h
  rcases hcases with h5 | ⟨h5, h6⟩ | ⟨h5, h6, h7⟩ | ⟨hm, h8⟩
  · obtain ⟨a0, a1, a2, a3, a4, a5, a6, a7, a8, rfl⟩ := length_nine L hlen
    simp at hargs h4 h4d h5
    have hpre : ∀ x ∈ [a0, a1, a2, a3], x.IsPushdata = true := by simpa using hargs
    have hL : [a0, a1, a2, a3, a4, a5, a6, a7, a8] =
        [a0, a1, a2, a3] ++ [a4, a5, a6, a7, a8] := rfl
    rw [hL, decodeQuorum, argLoop_pushdata 4 _ _ _ _ hpre rfl]
    simp [epilogueQuorum, index, h4, h4d, h5]
  · obtain ⟨a0, a1, a2, a3, a4, a5, a6, a7, a8, rfl⟩ := length_nine L hlen
    simp at hargs h4 h4d h5 h6
    have hpre : ∀ x ∈ [a0, a1, a2, a3], x.IsPushdata = true := by simpa using hargs
    have hL : [a0, a1, a2, a3, a4, a5, a6, a7, a8] =
        [a0, a1, a2, a3] ++ [a4, a5, a6, a7, a8] := rfl
    rw [hL, decodeQuorum, argLoop_pushdata 4 _ _ _ _ hpre rfl]
    simp [epilogueQuorum, index, h4, h4d, h5, h6]
  · obtain ⟨a0, a1, a2, a3, a4, a5, a6, a7, a8, rfl⟩ := length_nine L hlen
    simp at hargs h4 h4d h5 h6 h7
    have hpre : ∀ x ∈ [a0, a1, a2, a3], x.IsPushdata = true := by simpa using hargs
    have hL : [a0, a1, a2, a3, a4, a5, a6, a7, a8] =
        [a0, a1, a2, a3] ++ [a4, a5, a6, a7, a8] := rfl
    rw [hL, decodeQuorum, argLoop_pushdata 4 _ _ _ _ hpre rfl]
    simp [epilogueQuorum, index, h4, h4d, h5, h6, h7]
  · rw [decodeQuorum_marker body mismatch L 0 hm]
    simp [h8]

theorem decodeQuorum_body_kind_mismatch (body : Bytes) (mismatch : Error)
    (L : List Instruction) (h : quorumBodyKindMismatch L) :
    decodeQuorum body mismatch L = .ret none (some (.fmt "too few arguments")) := by
  obtain ⟨hlen, hargs, h4⟩ := h
  obtain ⟨a0, a1, a2, a3, a4, a5, a6, a7, a8, rfl⟩ := length_nine L hlen
  simp at hargs h4
  have hpre : ∀ x ∈ [a0, a1, a2, a3], x.IsPushdata = true := by simpa using hargs
  have hL : [a0, a1, a2, a3, a4, a5, a6, a7, a8] =
      [a0, a1, a2, a3] ++ [a4, a5, a6, a7, a8] := rfl
  rw [hL, decodeQuorum, argLoop_pushdata 4 _ _ _ _ hpre rfl]
  simp [epilogueQuorum, index, h4]

/-- C14, as stated, fails at the body position of the quorum template: the
`PriceChanger` sample with `DEPTH` in the place of the body pushdata has 9
instructions and 4 leading pushdata, the first failing check is the kind of
instruction 4, and the error is `too few arguments`, not
`wrong program format`. -/
theorem epilogue_opcode_mismatch_counterexample :
    quorumBodyKindMismatch (samplePriceChangerInsts.set 4 ⟨OP_DEPTH, []⟩) ∧
    ParsePayToPriceChangerInsts (samplePriceChangerInsts.set 4 ⟨OP_DEPTH, []⟩) =
      .ret none (some (.fmt "too few arguments")) ∧
    ParsePayToPriceChangerInsts (samplePriceChangerInsts.set 4 ⟨OP_DEPTH, []⟩) ≠
      .ret none (some (.fmt "wrong program format")) := by
  refine ⟨by decide, by rfl, by decide⟩

/-- C14, amended. Epilogue opcode mismatch: for each template, if the leading
`argCount` instructions are all pushdata, the instruction list has 9
instructions, and the first failing check is that an epilogue position does not
hold the instruction kind the shape requires, the decoder returns nil and
exactly the error `wrong program format` at every epilogue position other than
the body position of the quorum template; at that position an instruction that
is not a pushdata makes `ParsePayToPriceChanger` return nil and exactly the
error `too few arguments`. -/
theorem epilogue_opcode_mismatch (L : List Instruction) :
    (nonQuorumKindMismatch CallOptionBodyBytes L →
      ParsePayToCallOptionInsts L = .ret none (some (.fmt "wrong program format"))) ∧
    (nonQuorumKindMismatch LoanCollateralBodyBytes L →
      ParsePayToLoanCollateralInsts L = .ret none (some (.fmt "wrong program format"))) ∧
    (quorumKindMismatch PriceChangerBodyBytes L →
      ParsePayToPriceChangerInsts L = .ret none (some (.fmt "wrong program format"))) ∧
    (quorumBodyKindMismatch L →
      ParsePayToPriceChangerInsts L = .ret none (some (.fmt "too few arguments"))) :=
  ⟨fun h => decodeNonQuorum_kind_mismatch _ _ L h, fun h => decodeNonQuorum_kind_mismatch _ _ L h,
    fun h => decodeQuorum_kind_mismatch _ _ L h,
    fun h => decodeQuorum_body_kind_mismatch _ _ L h⟩

/-- Witness of C14, amended: the samples with `OVER` in the place of `DEPTH`,
with `DEPTH` in the place of the marker, with `DEPTH` in the place of `OVER`,
and with `OVER` in the place of the body of the quorum template. -/
theorem epilogue_opcode_mismatch_witness :
    ParsePayToCallOptionInsts (sampleCallOptionInsts.set 5 ⟨OP_OVER, []⟩) =
      .ret none (some (.fmt "wrong program format")) ∧
    ParsePayToLoanCollateralInsts (sampleLoanCollateralInsts.set 7 ⟨OP_DEPTH, []⟩) =
      .ret none (some (.fmt "wrong program format")) ∧
    ParsePayToPriceChangerInsts (samplePriceChangerInsts.set 6 ⟨OP_DEPTH, []⟩) =
      .ret none (some (.fmt "wrong program format")) ∧
    ParsePayToPriceChangerInsts (samplePriceChangerInsts.set 4 ⟨OP_OVER, []⟩) =
      .ret none (some (.fmt "too few arguments")) :=
  ⟨(epilogue_opcode_mismatch (sampleCallOptionInsts.set 5 ⟨OP_OVER, []⟩)).1 (by decide),
    (epilogue_opcode_mismatch (sampleLoanCollateralInsts.set 7 ⟨OP_DEPTH, []⟩)).2.1 (by decide),
    (epilogue_opcode_mismatch (samplePriceChangerInsts.set 6 ⟨OP_DEPTH, []⟩)).2.2.1 (by decide),
    (epilogue_opcode_mismatch (samplePriceChangerInsts.set 4 ⟨OP_OVER, []⟩)).2.2.2 (by decide)⟩

/-! ## The concrete scenario -/

/-- A push of a list of arguments succeeds when every byte string among them is
within the pushdata size limit. -/
theorem pushArgs_ok (args : List ContractArg)
    (h : ∀ s, ContractArg.S s ∈ args → s.length ≤ maxPushdataSize) :
    ∃ c, pushArgs args = .ok c := by
  induction args with
  | nil => exact ⟨[], rfl⟩
  | cons a rest ih =>
    obtain ⟨xs, hxs⟩ := ih (fun s hs => h s (List.mem_cons_of_mem _ hs))
    cases a with
    | I n => exact ⟨PushdataInt64 n ++ xs, by simp [pushArgs, pushArg, hxs]⟩
    | S s =>
      have hs : s.length ≤ maxPushdataSize := h s (List.mem_cons_self _ _)
      exact ⟨PushdataBytes s ++ xs, by simp [pushArgs, pushArg, hs, hxs]⟩

/-- The script compiler succeeds when the body and every byte string among the
arguments are within the pushdata size limit. -/
theorem Instantiate_ok (body : Bytes) (params : List Param) (recursive : Bool)
    (args : List ContractArg) (hb : body.length ≤ maxPushdataSize)
    (h : ∀ s, ContractArg.S s ∈ args → s.length ≤ maxPushdataSize) :
    ∃ script, Instantiate body params recursive args = .ok script := by
  obtain ⟨c, hc⟩ := pushArgs_ok args h
  unfold Instantiate
  cases recursive <;> simp [hc, pushArg, hb]

theorem AssetID.Bytes_length (a : AssetID) : a.Bytes.length = 32 := by
  simp [AssetID.Bytes, putUint64BE, putUint64]

/-- C13. Concrete scenario: `PayToCallOption` for the strike price 100, the
zero asset (32 zero bytes), any 22-byte seller program, any 32-byte buyer key
and the block height 500000 succeeds; the first 5 pushdata payloads of the
script are, in order, `64`, the 32 zero bytes, the seller program, the buyer
key, `20 a1 07`; and `ParsePayToCallOption` of the script returns exactly those
5 byte strings and no error. -/
theorem concrete_scenario (seller buyerKey : Bytes) (hs : seller.length = 22)
    (hk : buyerKey.length = 32) :
    ∃ script, PayToCallOption 100 ⟨0, 0, 0, 0⟩ seller buyerKey 500000 = .ok script ∧
      leadingPayloads 5 script =
        some [[0x64], List.replicate 32 0, seller, buyerKey, [0x20, 0xa1, 0x07]] ∧
      ParsePayToCallOption script =
        .ret (some [[0x64], List.replicate 32 0, seller, buyerKey, [0x20, 0xa1, 0x07]])
          none := by
  have hargs : ∀ s, ContractArg.S s ∈ CallOptionArgs 100 ⟨0, 0, 0, 0⟩ seller buyerKey 500000 →
      s.length ≤ maxPushdataSize := by
    intro s hmem
    simp [CallOptionArgs] at hmem
    rcases hmem with rfl | rfl | rfl
    · rw [AssetID.Bytes_length]; decide
    · rw [hs]; decide
    · rw [hk]; decide
  obtain ⟨script, hscript⟩ := Instantiate_ok CallOptionBodyBytes CallOptionParams false
    (CallOptionArgs 100 ⟨0, 0, 0, 0⟩ seller buyerKey 500000) (by decide) hargs
  have hparse := ParseProgram_Instantiate _ _ _ _ script hscript
  have hdecode := decodeNonQuorum_Instantiate CallOptionBodyBytes
    (.fmt "body bytes do not match CallOption") CallOptionParams _ _ _ _ _ script hscript
  have h1 : (ContractArg.I 500000).payload = [0x20, 0xa1, 0x07] := by rfl
  have h2 : (ContractArg.I (int64 100)).payload = [0x64] := by rfl
  have h3 : (ContractArg.S (AssetID.Bytes ⟨0, 0, 0, 0⟩)).payload = List.replicate 32 0 := by rfl
  refine ⟨script, hscript, ?_, ?_⟩
  · simp only [leadingPayloads, hparse]
    simp [scriptInsts, CallOptionArgs, ContractArg.inst_Data, ContractArg.payload]
    exact ⟨by rfl, by rfl, by rfl⟩
  · rw [h1, h2, h3] at hdecode
    exact hdecode

set_option maxRecDepth 100000 in
/-- Witness of C13 at the seller program `00 14 ab .. ab` and the buyer key
`cd .. cd`, with the script written out. -/
theorem concrete_scenario_witness :
    (∃ script, PayToCallOption 100 ⟨0, 0, 0, 0⟩ scenarioSeller scenarioBuyerKey 500000 =
        .ok script ∧
      leadingPayloads 5 script =
        some [[0x64], List.replicate 32 0, scenarioSeller, scenarioBuyerKey,
          [0x20, 0xa1, 0x07]] ∧
      ParsePayToCallOption script =
        .ret (some [[0x64], List.replicate 32 0, scenarioSeller, scenarioBuyerKey,
          [0x20, 0xa1, 0x07]]) none) ∧
    PayToCallOption 100 ⟨0, 0, 0, 0⟩ scenarioSeller scenarioBuyerKey 500000 =
      .ok scenarioScript :=
  ⟨concrete_scenario scenarioSeller scenarioBuyerKey (by decide) (by decide), by rfl⟩

/-! ## Acceptance outside the image of the encoders -/

/-- The marker instruction of every script of the compiler is the empty push. -/
theorem instructionAt_marker (body : Bytes) (params : List Param) (recursive : Bool)
    (args : List ContractArg) (script : Bytes)
    (h : Instantiate body params recursive args = .ok script) :
    instructionAt (args.length + if recursive then 3 else 2) script = some ⟨OP_0, []⟩ := by
  simp only [instructionAt, ParseProgram_Instantiate body params recursive args script h,
    scriptInsts]
  rw [List.getElem?_append_right (by simp)]
  cases recursive <;> simp [epilogueInsts]

/-- The instruction of the block height of every script of `PayToCallOption` has
a payload of at most 8 bytes. -/
theorem instructionAt_blockHeight (strikePrice : Nat) (strikeCurrency : AssetID)
    (seller buyerKey : Bytes) (blockHeight : Int) (script : Bytes)
    (h : PayToCallOption strikePrice strikeCurrency seller buyerKey blockHeight = .ok script) :
    ∃ x, instructionAt 4 script = some x ∧ x.Data.length ≤ 8 := by
  refine ⟨(ContractArg.I blockHeight).inst, ?_, Int64Bytes_length _⟩
  simp [instructionAt, ParseProgram_Instantiate _ _ _ _ script h, scriptInsts, CallOptionArgs]

set_option maxRecDepth 100000 in
/-- C18. Acceptance outside the image of the encoders: for each template there
is a program that `ParsePayToX` accepts and that no argument tuple of `PayToX`
produces: the program whose zero marker is pushed as the one-byte payload `00`
instead of the empty push, and, for `CallOption`, a program whose block height
position holds a 9-byte payload. The decoders put no constraint on the content
or the length of the argument payloads: pushdata instructions with any five
(four) payloads before the epilogue are accepted and their payloads returned. -/
theorem non_canonical_acceptance :
    (ParsePayToCallOption nonCanonicalCallOptionScript = .ret (some [[], [], [], [], []]) none ∧
      ∀ (strikePrice : Nat) (strikeCurrency : AssetID) (seller buyerKey : Bytes)
        (blockHeight : Int),
        PayToCallOption strikePrice strikeCurrency seller buyerKey blockHeight ≠
          .ok nonCanonicalCallOptionScript) ∧
    (ParsePayToLoanCollateral nonCanonicalLoanCollateralScript =
        .ret (some [[], [], [], [], []]) none ∧
      ∀ (assetLoaned : AssetID) (amountLoaned : Nat) (blockHeight : Int)
        (lender borrower : Bytes),
        PayToLoanCollateral assetLoaned amountLoaned blockHeight lender borrower ≠
          .ok nonCanonicalLoanCollateralScript) ∧
    (ParsePayToPriceChanger nonCanonicalPriceChangerScript = .ret (some [[], [], [], []]) none ∧
      ∀ (askAmount : Nat) (askAsset : AssetID) (sellerKey sellerProg : Bytes),
        PayToPriceChanger askAmount askAsset sellerKey sellerProg ≠
          .ok nonCanonicalPriceChangerScript) ∧
    (ParsePayToCallOption nonCanonicalIntegerScript =
        .ret (some [[], [], [], [], List.replicate 9 0xff]) none ∧
      ∀ (strikePrice : Nat) (strikeCurrency : AssetID) (seller buyerKey : Bytes)
        (blockHeight : Int),
        PayToCallOption strikePrice strikeCurrency seller buyerKey blockHeight ≠
          .ok nonCanonicalIntegerScript) ∧
    (∀ d0 d1 d2 d3 d4 : Bytes,
      ParsePayToCallOptionInsts [⟨OP_PUSHDATA4, d0⟩, ⟨OP_PUSHDATA4, d1⟩, ⟨OP_PUSHDATA4, d2⟩,
        ⟨OP_PUSHDATA4, d3⟩, ⟨OP_PUSHDATA4, d4⟩, ⟨OP_DEPTH, []⟩, ⟨0x2c, CallOptionBodyBytes⟩,
        ⟨OP_0, []⟩, ⟨OP_CHECKPREDICATE, []⟩] = .ret (some [d0, d1, d2, d3, d4]) none ∧
      ParsePayToLoanCollateralInsts [⟨OP_PUSHDATA4, d0⟩, ⟨OP_PUSHDATA4, d1⟩,
        ⟨OP_PUSHDATA4, d2⟩, ⟨OP_PUSHDATA4, d3⟩, ⟨OP_PUSHDATA4, d4⟩, ⟨OP_DEPTH, []⟩,
        ⟨0x26, LoanCollateralBodyBytes⟩, ⟨OP_0, []⟩, ⟨OP_CHECKPREDICATE, []⟩] =
        .ret (some [d0, d1, d2, d3, d4]) none ∧
      ParsePayToPriceChangerInsts [⟨OP_PUSHDATA4, d0⟩, ⟨OP_PUSHDATA4, d1⟩, ⟨OP_PUSHDATA4, d2⟩,
        ⟨OP_PUSHDATA4, d3⟩, ⟨0x3a, PriceChangerBodyBytes⟩, ⟨OP_DEPTH, []⟩, ⟨OP_OVER, []⟩,
        ⟨OP_0, []⟩, ⟨OP_CHECKPREDICATE, []⟩] = .ret (some [d0, d1, d2, d3]) none) := by
  refine ⟨⟨by rfl, ?_⟩, ⟨by rfl, ?_⟩, ⟨by rfl, ?_⟩, ⟨by rfl, ?_⟩, ?_⟩
  · intro strikePrice strikeCurrency seller buyerKey blockHeight h
    have h1 := instructionAt_marker _ _ _ _ _ h
    have h2 : instructionAt 7 nonCanonicalCallOptionScript = some ⟨OP_DATA_1, [0]⟩ := by rfl
    have h3 : instructionAt 7 _ = some ⟨OP_0, []⟩ := h1
    rw [h2] at h3
    simp at h3
  · intro assetLoaned amountLoaned blockHeight lender borrower h
    have h1 := instructionAt_marker _ _ _ _ _ h
    have h2 : instructionAt 7 nonCanonicalLoanCollateralScript = some ⟨OP_DATA_1, [0]⟩ := by
      rfl
    have h3 : instructionAt 7 _ = some ⟨OP_0, []⟩ := h1
    rw [h2] at h3
    simp at h3
  · intro askAmount askAsset sellerKey sellerProg h
    have h1 := instructionAt_marker _ _ _ _ _ h
    have h2 : instructionAt 7 nonCanonicalPriceChangerScript = some ⟨OP_DATA_1, [0]⟩ := by rfl
    have h3 : instructionAt 7 _ = some ⟨OP_0, []⟩ := h1
    rw [h2] at h3
    simp at h3
  · intro strikePrice strikeCurrency seller buyerKey blockHeight h
    obtain ⟨x, hx, hlen⟩ := instructionAt_blockHeight _ _ _ _ _ _ h
    have h2 : instructionAt 4 nonCanonicalIntegerScript = some ⟨0x09, List.replicate 9 0xff⟩ := by
      rfl
    rw [h2] at hx
    cases hx
    simp at hlen
  · intro d0 d1 d2 d3 d4
    refine ⟨?_, ?_, ?_⟩
    · rw [ParsePayToCallOptionInsts_eq]
      rw [decodeNonQuorum_of_shape _ _ _ (by
        simp [nonQuorumShape, Instruction.IsPushdata, AsInt64_nil, Except.toOption,
          OP_PUSHDATA4, OP_1, OP_16])]
      rfl
    · rw [ParsePayToLoanCollateralInsts_eq]
      rw [decodeNonQuorum_of_shape _ _ _ (by
        simp [nonQuorumShape, Instruction.IsPushdata, AsInt64_nil, Except.toOption,
          OP_PUSHDATA4, OP_1, OP_16])]
      rfl
    · rw [ParsePayToPriceChangerInsts_eq]
      rw [decodeQuorum_of_shape _ _ _ (by
        simp [quorumShape, Instruction.IsPushdata, AsInt64_nil, Except.toOption,
          OP_PUSHDATA4, OP_1, OP_16])]
      rfl

end Bytom
